import Mathlib

/-!
Verification of the parallel IRWLS SVM trainer of `src/full-train.c`
(functions `subIRWLS` and `trainFULL`), as a shallow embedding over `ℚ`.

C `double` values are embedded as exact rationals.  The only places where
IEEE-754 semantics differ in a way the control flow can observe are the
comparisons `deltaW/normW < bound` and `deltaW/normW > bound` when the
denominator (a sum of squares, hence nonnegative) is zero: IEEE produces
`+inf` (numerator positive) or `NaN` (numerator zero) and in both cases the
comparison against the finite bounds used by the code (`props.Eta`,
`bestNorm`, `bestDW`, `1e-6`) evaluates as described in `ratioLT` /
`ratioGT` below.  Those two helpers make that behaviour explicit instead of
using the `ℚ` convention `x / 0 = 0`.

Code of the repository that is not under `src/` (the kernel function, the
dense linear-system solver, and the C library `rand` used by `rpermute`)
is passed in as oracle parameters; see the `Modelled from the spec:`
comments.
-/

namespace LIBIRWLS

/-- Array read with the C array convention that every cell we ever read was
`calloc`-initialised: out-of-range reads of our list-embedded arrays return
the zero the corresponding C buffer holds. -/
def idx (xs : List ℚ) (i : Nat) : ℚ := xs.getD i 0

/-- Embedding of the C comparison `num/den < bound` for `num, den` sums of
squares (hence `≥ 0`) and a finite `bound`: if `den = 0` IEEE yields `+inf`
(for `num > 0`) or `NaN` (for `num = 0`), and in both cases the `<`
comparison is false. -/
def ratioLT (num den bound : ℚ) : Bool :=
  if den = 0 then false else decide (num / den < bound)

/-- Embedding of the C comparison `num/den > bound` for `num, den` sums of
squares and a finite positive `bound`: if `den = 0` IEEE yields `+inf`
(for `num > 0`, comparison true) or `NaN` (for `num = 0`, comparison
false). -/
def ratioGT (num den bound : ℚ) : Bool :=
  if den = 0 then decide (num ≠ 0) else decide (num / den > bound)

/-- Training properties of `full-train.c` (the fields `trainFULL` and
`subIRWLS` read). -/
structure Props where
  C : ℚ
  Eta : ℚ
  Threads : Nat
  MaxSize : Nat

/-- Argument package of one call to the external dense linear-system solver
`ParallelLinearSystem` (`full-train.c:200`): the system size `n = nS1`, the
`(nS1+1) × (nS1+1)` matrix `H`, the right-hand side `et`, and the thread
count `thLS` it is invoked with. -/
structure SolveIn where
  n : Nat
  H : List (List ℚ)
  et : List ℚ
  threads : Nat

/-- Modelled from the spec: the Dense Linear System Solver
(`ParallelLinearSystem`, declared in `ParallelAlgorithms.h`, not under
`src/`) "given a symmetric dense matrix of size n×n and a right-hand-side
vector, returns a solution vector".  It is embedded as an arbitrary
function from its call arguments to the solution vector `betaAux`. -/
def Solver : Type := SolveIn → List ℚ

/-- Modelled from the spec: the Kernel Evaluator (`kernelFunction`,
declared in `kernels.h`, not under `src/`) is "a deterministic, pure,
thread-safe function taking two sample identifiers and the kernel
hyperparameters and returning a real similarity value".  It is embedded as
an arbitrary function of the two sample indices; because it is a pure
function of the two samples, the kernel of the reduced sub-dataset built by
`trainFULL` is the global kernel composed with the working-set index map. -/
def Kernel : Type := Nat → Nat → ℚ

/-- Modelled from the spec: `rpermute` (`full-train.c:67`) builds "a
uniformly random sample (without replacement)" permutation using the C
library `rand`; the random source is embedded as an oracle producing, for
each size `n`, the permutation of `0..n-1` that `rpermute n` returns. -/
def PermOracle : Type := Nat → List Nat

/-- Per-sample weight at the initial weighting of `subIRWLS`
(`full-train.c:133-139`): `a_i = 0` if `e_i·y_i < 0`, else `y_i·C/e_i`
(no near-zero cap at this site). -/
def aInit (e y C : ℚ) : ℚ :=
  if e * y < 0 then 0 else 1 * y * C / e

/-- Per-sample weight at the per-iteration re-partitioning of `subIRWLS`
(`full-train.c:272-278`): `a_i = 0` if `e_i·y_i < 0`, capped at `C·10⁴`
if `e_i·y_i < 10⁻⁴`, else `y_i·C/e_i`. -/
def aStep (e y C : ℚ) : ℚ :=
  if e * y < 0 then 0
  else if e * y < 1 / 10000 then C * 10000
  else 1 * y * C / e

/-- Thread count used for the linear-system solve (`full-train.c:194-196`):
`thLS = 2^⌊log₂ Threads⌋`, lowered to `2^⌊log₂ nS1⌋` when `nS1 < thLS`,
clamped below by 1.  The C code computes `pow(2, floor(log(x)/log(2)))`,
which is `0` for `x = 0` and `2^⌊log₂ x⌋` for `x ≥ 1`. -/
def pow2floorlog (n : Nat) : Nat :=
  if n = 0 then 0 else 2 ^ Nat.log2 n

/-- The `thLS` computation of `full-train.c:194-196`. -/
def thLSof (threads nS1 : Nat) : Nat :=
  let t := pow2floorlog threads
  let t2 := if nS1 < t then pow2floorlog nS1 else t
  if t2 < 1 then 1 else t2

/-- Inputs of one `subIRWLS` call that stay fixed during the call:
the sub-dataset (`l` samples with labels `y`), the training properties it
reads (`C`, `Threads`), the sub-dataset kernel, the frozen influence
vector `GIN`, and the solver oracle. -/
structure InnerCtx where
  l : Nat
  y : List ℚ
  C : ℚ
  Threads : Nat
  K : Nat → Nat → ℚ
  GIN : List ℚ
  solve : SolveIn → List ℚ

/-- Mutable state of the `subIRWLS` loop (`full-train.c:98-364`).  The
fields mirror the C locals; `lastSolveThreads` and `ompThreads` record the
thread count passed to the last solver call and the current
`omp_set_num_threads` setting (lines 199-201), and `trace` records the
`(deltaW, normW, betaNew)` triple of every executed iteration so that the
best-snapshot bookkeeping can be specified against the run history. -/
structure InnerState where
  a : List ℚ
  group : List Nat
  beta : List ℚ
  betaNew : List ℚ
  betaBest : List ℚ
  e : List ℚ
  maxbeta : ℚ
  minbeta : ℚ
  iter : Nat
  deltaW : ℚ
  normW : ℚ
  itersSinceBestDW : Nat
  bestDW : ℚ
  S1comp : List Nat
  S3comp : List Nat
  G13 : List ℚ
  lastSolveThreads : Nat
  ompThreads : Nat
  trace : List (ℚ × ℚ × List ℚ)
deriving DecidableEq

/-- Initialisation of `subIRWLS` (`full-train.c:102-157`): per-sample
weights via `aInit`, and the partition of the working set into the groups
2 (`a_i = 0`), 3 (`β_i = y_i·C`, indices collected in `S3comp`) and 1
(free, indices collected in `S1comp`). -/
def innerInit (ctx : InnerCtx) (e beta : List ℚ) : InnerState :=
  let init := (List.range ctx.l).foldl
    (fun (st : List ℚ × List Nat × List Nat × List Nat) i =>
      let yi := idx ctx.y i
      let ai := aInit (idx e i) yi ctx.C
      if ai = 0 then
        (st.1 ++ [ai], st.2.1 ++ [2], st.2.2.1, st.2.2.2)
      else if idx beta i = yi * ctx.C then
        (st.1 ++ [ai], st.2.1 ++ [3], st.2.2.1, st.2.2.2 ++ [i])
      else
        (st.1 ++ [ai], st.2.1 ++ [1], st.2.2.1 ++ [i], st.2.2.2))
    ([], [], [], [])
  { a := init.1
    group := init.2.1
    beta := beta
    betaNew := List.replicate (ctx.l + 1) 0
    betaBest := List.replicate (ctx.l + 1) 0
    e := e
    maxbeta := 0
    minbeta := 0
    iter := 0
    deltaW := 1000000000
    normW := 1
    itersSinceBestDW := 0
    bestDW := 1000000000
    S1comp := init.2.2.1
    S3comp := init.2.2.2
    G13 := List.replicate (init.2.2.1.length + 1) 0
    lastSolveThreads := 0
    ompThreads := ctx.Threads
    trace := [] }

/-- The matrix `H` of the linear system (`full-train.c:167-187`):
`H[i][j] = K(S1ᵢ,S1ⱼ)·y_{S1ᵢ}·y_{S1ⱼ} + [i=j]/a_{S1ᵢ}` for free rows,
bordered by the labels (bias-equality constraint) with `H[nS1][nS1] = 0`. -/
def buildH (ctx : InnerCtx) (s : InnerState) : List (List ℚ) :=
  let nS1 := s.S1comp.length
  (List.range (nS1 + 1)).map (fun i =>
    (List.range (nS1 + 1)).map (fun j =>
      if i < nS1 then
        if j < nS1 then
          ctx.K (s.S1comp.getD i 0) (s.S1comp.getD j 0) *
              idx ctx.y (s.S1comp.getD i 0) * idx ctx.y (s.S1comp.getD j 0) +
            (if i = j then 1 / idx s.a (s.S1comp.getD i 0) else 0)
        else idx ctx.y (s.S1comp.getD i 0)
      else if j < nS1 then idx ctx.y (s.S1comp.getD j 0)
      else 0))

/-- The right-hand side `et` of the linear system (`full-train.c:178,188`):
`et[i] = 1 − G13[i] − GIN[S1ᵢ]` for free rows and
`et[nS1] = −G13[nS1] − GIN[l]`. -/
def buildEt (ctx : InnerCtx) (s : InnerState) : List ℚ :=
  let nS1 := s.S1comp.length
  (List.range (nS1 + 1)).map (fun i =>
    if i < nS1 then 1 - idx s.G13 i - idx ctx.GIN (s.S1comp.getD i 0)
    else 0 - idx s.G13 nS1 - idx ctx.GIN ctx.l)

/-- The solver call arguments of one inner iteration
(`full-train.c:194-200`). -/
def innerSolveIn (ctx : InnerCtx) (s : InnerState) : SolveIn :=
  { n := s.S1comp.length
    H := buildH ctx s
    et := buildEt ctx s
    threads := thLSof ctx.Threads s.S1comp.length }

/-- The solver solution `betaAux` of one inner iteration. -/
def innerBetaAux (ctx : InnerCtx) (s : InnerState) : List ℚ :=
  ctx.solve (innerSolveIn ctx s)

/-- The updated working-set weights `betaNew` of one inner iteration
(`full-train.c:213-226`): free samples get `betaAux_i·y_i`, bound samples
get `C·y_i`, everything else stays at the `memset` zero, and the last
entry is the bias `betaAux[nS1]`. -/
def innerBetaNew (ctx : InnerCtx) (s : InnerState) : List ℚ :=
  let aux := innerBetaAux ctx s
  let nS1 := s.S1comp.length
  let nS3 := s.S3comp.length
  let b1 := (List.range nS1).foldl
    (fun b i => b.set (s.S1comp.getD i 0) (idx aux i * idx ctx.y (s.S1comp.getD i 0)))
    (List.replicate (ctx.l + 1) 0)
  let b2 := (List.range nS3).foldl
    (fun b i => b.set (s.S3comp.getD i 0) (ctx.C * idx ctx.y (s.S3comp.getD i 0))) b1
  b2.set ctx.l (idx aux nS1)

/-- The squared weight change `deltaW` of one inner iteration
(`full-train.c:228-232`). -/
def innerDeltaW (ctx : InnerCtx) (s : InnerState) : ℚ :=
  (List.range (ctx.l + 1)).foldl
    (fun acc i => acc + (idx (innerBetaNew ctx s) i - idx s.beta i) ^ 2) 0

/-- The squared norm `normW` of the previous weights of one inner iteration
(`full-train.c:228-232`). -/
def innerNormW (ctx : InnerCtx) (s : InnerState) : ℚ :=
  (List.range (ctx.l + 1)).foldl (fun acc i => acc + idx s.beta i ^ 2) 0

/-- The residual update of one inner iteration (`full-train.c:238-251`). -/
def innerEUpd (ctx : InnerCtx) (s : InnerState) : List ℚ :=
  let bNew := innerBetaNew ctx s
  (List.range ctx.l).map (fun i =>
    (List.range ctx.l).foldl
      (fun acc j =>
        if idx bNew j ≠ idx s.beta j then
          acc - ctx.K i j * (idx bNew j - idx s.beta j)
        else acc)
      (idx s.e i)
    - (idx bNew ctx.l - idx s.beta ctx.l))

/-- One full iteration of the `subIRWLS` loop body (`full-train.c:160-348`):
solve the system, update the weights, the residuals and the best-snapshot
bookkeeping, re-partition every sample, and recompute `G13`. -/
def innerStep (ctx : InnerCtx) (s : InnerState) : InnerState :=
  let l := ctx.l
  let nS1 := s.S1comp.length
  let aux := innerBetaAux ctx s
  let maxb := (List.range nS1).foldl (fun m i => if idx aux i > m then idx aux i else m) 0
  let minb := (List.range nS1).foldl (fun m i => if idx aux i < m then idx aux i else m) 0
  let bNew := innerBetaNew ctx s
  let dW := innerDeltaW ctx s
  let nW := innerNormW ctx s
  let e1 := innerEUpd ctx s
  let best := ratioLT dW nW s.bestDW
  let a1 := (List.range l).map (fun i => aStep (idx e1 i) (idx ctx.y i) ctx.C)
  let group1 := (List.range l).map (fun i =>
    let g0 := s.group.getD i 0
    let yi := idx ctx.y i
    let g1 := if idx e1 i * yi < 0 ∧ g0 ≠ 2 then 2 else g0
    let g2 := if g1 = 1 ∧ yi * idx bNew i ≥ 99 / 100 * ctx.C ∧ yi * idx bNew i ≤ 101 / 100 * ctx.C
      then 3 else g1
    let g3 := if idx a1 i = 0 ∧ g2 = 1 then 2 else g2
    if g3 = 2 ∧ idx a1 i ≠ 0 then 1 else g3)
  let S1 := (List.range l).filter (fun i => group1.getD i 0 = 1)
  let S3 := (List.range l).filter (fun i => group1.getD i 0 = 3)
  let G13 := if S3.length > 0 then
      (List.range (S1.length + 1)).map (fun i =>
        if i < S1.length then
          (List.range S3.length).foldl
            (fun acc o =>
              acc + ctx.C * ctx.K (S1.getD i 0) (S3.getD o 0) *
                idx ctx.y (S1.getD i 0) * idx ctx.y (S3.getD o 0)) 0
        else
          (List.range S3.length).foldl (fun acc o => acc + ctx.C * idx ctx.y (S3.getD o 0)) 0)
    else List.replicate (S1.length + 1) 0
  { a := a1
    group := group1
    beta := bNew
    betaNew := bNew
    betaBest := if best then bNew else s.betaBest
    e := e1
    maxbeta := maxb
    minbeta := minb
    iter := s.iter + 1
    deltaW := dW
    normW := nW
    itersSinceBestDW := if best then 0 else s.itersSinceBestDW + 1
    bestDW := if best then dW / nW else s.bestDW
    S1comp := S1
    S3comp := S3
    G13 := G13
    lastSolveThreads := thLSof ctx.Threads nS1
    ompThreads := ctx.Threads
    trace := s.trace ++ [(dW, nW, bNew)] }

/-- The `subIRWLS` loop guard (`full-train.c:160`).  By C operator
precedence the condition is
`iter<5 ∨ ((minbeta<0 ∨ maxbeta>C) ∧ iter<1000 ∧ itersSinceBestDW<5 ∧
deltaW/normW > 1e-6)`. -/
def innerCond (C : ℚ) (s : InnerState) : Bool :=
  decide (s.iter < 5) ||
    ((decide (s.minbeta < 0) || decide (s.maxbeta > C)) && decide (s.iter < 1000) &&
      decide (s.itersSinceBestDW < 5) && ratioGT s.deltaW s.normW (1 / 1000000))

/-- The `subIRWLS` loop with explicit fuel; `none` means the fuel ran out
before the guard became false (which never happens with fuel 1000, see the
termination theorem). -/
def innerLoop (ctx : InnerCtx) : Nat → InnerState → Option InnerState
  | 0, s => if innerCond ctx.C s then none else some s
  | fuel + 1, s =>
      if innerCond ctx.C s then innerLoop ctx fuel (innerStep ctx s) else some s

/-- `subIRWLS` (`full-train.c:98-364`): run the loop (1000 is an upper
bound on its iteration count) and return the best snapshot `betaBest`.
The `[]` fallback is unreachable. -/
def subIRWLS (ctx : InnerCtx) (e beta : List ℚ) : List ℚ :=
  ((innerLoop ctx 1000 (innerInit ctx e beta)).map (fun s => s.betaBest)).getD []

/-- Inputs of one `trainFULL` run that stay fixed: the dataset (`l` samples
with labels `y`), the training properties, the kernel oracle, the solver
oracle and the permutation oracle for `rpermute`. -/
structure OuterCtx where
  l : Nat
  y : List ℚ
  props : Props
  K : Nat → Nat → ℚ
  solve : SolveIn → List ℚ
  rperm : Nat → List Nat

/-- Mutable state of the `trainFULL` loop (`full-train.c:375-670`).  The
fields mirror the C locals; `lastDeltaW` and `lastNormW` record the
`deltaW`/`normW` pair of the most recent outer convergence check
(lines 516-521), so that theorems can refer to the values compared
there. -/
structure OuterState where
  e : List ℚ
  beta : List ℚ
  betaNew : List ℚ
  betaBest : List ℚ
  GIN : List ℚ
  SW : List Nat
  SIN : List Nat
  SC : List Nat
  iter : Nat
  endNorm : Bool
  bestNorm : ℚ
  SinceBest : Nat
  lastDeltaW : ℚ
  lastNormW : ℚ
deriving DecidableEq

/-- Initial working-set selection of `trainFULL` (`full-train.c:413-425`):
sample `i` joins the working set when `i % 10 < 1` and the working set is
not yet full, otherwise the inactive set. -/
def initPartition (l MaxWS : Nat) : List Nat × List Nat :=
  (List.range l).foldl
    (fun (st : List Nat × List Nat) i =>
      if i % 10 < 1 ∧ st.1.length < MaxWS then (st.1 ++ [i], st.2)
      else (st.1, st.2 ++ [i]))
    ([], [])

/-- Initial state of `trainFULL` (`full-train.c:378-431`): zeroed weight
buffers, residuals `e_i = y_i`, the initial working-set partition,
`bestNorm = 1e20` and `SinceBest = 0`. -/
def outerInit (ctx : OuterCtx) : OuterState :=
  let p := initPartition ctx.l ctx.props.MaxSize
  { e := (List.range ctx.l).map (fun i => idx ctx.y i)
    beta := List.replicate (ctx.l + 1) 0
    betaNew := List.replicate (ctx.l + 1) 0
    betaBest := List.replicate (ctx.l + 1) 0
    GIN := List.replicate (ctx.props.MaxSize + 1) 0
    SW := p.1
    SIN := p.2
    SC := []
    iter := 0
    endNorm := false
    bestNorm := 100000000000000000000
    SinceBest := 0
    lastDeltaW := 0
    lastNormW := 0 }

/-- Result of the sample re-classification scan of an outer iteration
(`full-train.c:542-617`): the seed working set, the inactive set, the
candidate pool and the six per-category found flags. -/
structure ScanOut where
  SW : List Nat
  SIN : List Nat
  SC : List Nat
  f00 : Bool
  f01 : Bool
  f02 : Bool
  f10 : Bool
  f11 : Bool
  f12 : Bool

/-- One step of the re-classification scan (`full-train.c:549-617`), for
sample `i`, with the violation threshold `th = epsilonThreshold`. -/
def scanStep (C th : ℚ) (y betaNew e : List ℚ) (st : ScanOut) (i : Nat) : ScanOut :=
  let yi := idx y i
  let b := idx betaNew i
  let ei := idx e i
  if b * yi = C then
    let eps := ei * yi
    if eps < -1 * th then
      if yi = -1 ∧ st.f02 = false then { st with SW := st.SW ++ [i], f02 := true }
      else if yi = 1 ∧ st.f12 = false then { st with SW := st.SW ++ [i], f12 := true }
      else { st with SC := st.SC ++ [i] }
    else { st with SIN := st.SIN ++ [i] }
  else if b = 0 then
    let eps := ei * yi
    if eps > th then
      if yi = -1 ∧ st.f00 = false then { st with SW := st.SW ++ [i], f00 := true }
      else if yi = 1 ∧ st.f10 = false then { st with SW := st.SW ++ [i], f10 := true }
      else { st with SC := st.SC ++ [i] }
    else { st with SIN := st.SIN ++ [i] }
  else if b * yi ≠ 0 ∧ b * yi ≠ C then
    let eps := |ei * yi|
    if eps > th then
      if yi = -1 ∧ st.f01 = false then { st with SW := st.SW ++ [i], f01 := true }
      else if yi = 1 ∧ st.f11 = false then { st with SW := st.SW ++ [i], f11 := true }
      else { st with SC := st.SC ++ [i] }
    else { st with SC := st.SC ++ [i] }
  else st

/-- The full re-classification scan of an outer iteration
(`full-train.c:542-617`), starting from empty sets and cleared flags. -/
def scanClassify (C th : ℚ) (l : Nat) (y betaNew e : List ℚ) : ScanOut :=
  (List.range l).foldl (scanStep C th y betaNew e) ⟨[], [], [], false, false, false, false, false, false⟩

/-- Working-set fill of an outer iteration (`full-train.c:626-645`): if the
candidate pool fits in the remaining capacity (as a signed comparison, as
in C), append it whole; otherwise walk a random permutation of the pool and
append the first `MaxWS - |SW|` entries to the working set, deferring the
rest to the inactive set. -/
def fillWS (MaxWS : Nat) (rp : Nat → List Nat) (sw sin sc : List Nat) :
    List Nat × List Nat :=
  if (sc.length : Int) < (MaxWS : Int) - (sw.length : Int) then
    (sw ++ sc, sin)
  else
    let p := rp sc.length
    let space : Int := (MaxWS : Int) - (sw.length : Int)
    (List.range sc.length).foldl
      (fun (st : List Nat × List Nat) (i : Nat) =>
        if (i : Int) < space then (st.1 ++ [sc.getD (p.getD i 0) 0], st.2)
        else (st.1, st.2 ++ [sc.getD (p.getD i 0) 0]))
      (sw, sin)

/-- The frozen-influence vector construction of an outer iteration
(`full-train.c:436-458`): rebuilt (prefix of length `nSW + 1`) when the
inactive set is nonempty, otherwise the stale buffer contents are kept, as
the C code does. -/
def outerGIN (ctx : OuterCtx) (s : OuterState) : List ℚ :=
  let nSW := s.SW.length
  let nSIn := s.SIN.length
  if nSIn > 0 then
    ((List.range (nSW + 1)).map (fun i =>
      if i < nSW then
        (List.range nSIn).foldl
          (fun acc o =>
            if idx s.betaNew (s.SIN.getD o 0) ≠ 0 then
              acc + idx s.betaNew (s.SIN.getD o 0) *
                ctx.K (s.SW.getD i 0) (s.SIN.getD o 0) * idx ctx.y (s.SW.getD i 0)
            else acc) 0
      else
        (List.range nSIn).foldl (fun acc o => acc + idx s.betaNew (s.SIN.getD o 0)) 0))
      ++ s.GIN.drop (nSW + 1)
  else s.GIN

/-- The sub-dataset solver context built by an outer iteration
(`full-train.c:461-476`): the reduced dataset carries the working-set
labels, the kernel restricted to working-set samples, the frozen influence
vector, and the training properties `subIRWLS` reads. -/
def outerICtx (ctx : OuterCtx) (s : OuterState) : InnerCtx :=
  { l := s.SW.length
    y := s.SW.map (fun i => idx ctx.y i)
    C := ctx.props.C
    Threads := ctx.props.Threads
    K := fun i j => ctx.K (s.SW.getD i 0) (s.SW.getD j 0)
    GIN := outerGIN ctx s
    solve := ctx.solve }

/-- The reduced residual vector `esub` passed to `subIRWLS`
(`full-train.c:471`). -/
def outerEsub (s : OuterState) : List ℚ :=
  s.SW.map (fun i => idx s.e i)

/-- The reduced weight vector `betasub` passed to `subIRWLS`
(`full-train.c:470,476`). -/
def outerBetasub (ctx : OuterCtx) (s : OuterState) : List ℚ :=
  s.SW.map (fun i => idx s.beta i) ++ [idx s.beta ctx.l]

/-- The rest of an outer iteration after the `subIRWLS` call returned the
candidate weights `betaTmp` (`full-train.c:486-645`): merge the candidate
into the global weights, update the residuals, the convergence flag and
the best-snapshot bookkeeping, then re-classify every sample and build the
next working set. -/
def outerMergeScan (ctx : OuterCtx) (s : OuterState) (betaTmp : List ℚ) : OuterState :=
  let l := ctx.l
  let nSW := s.SW.length
  let bNew := ((List.range nSW).foldl
      (fun b i => b.set (s.SW.getD i 0) (idx betaTmp i)) s.beta).set l (idx betaTmp nSW)
  let e1 := (List.range l).map (fun i =>
    (List.range nSW).foldl
      (fun acc j =>
        acc - ctx.K i (s.SW.getD j 0) * (idx bNew (s.SW.getD j 0) - idx s.beta (s.SW.getD j 0)))
      (idx s.e i)
    - (idx bNew l - idx s.beta l))
  let dW := (List.range (l + 1)).foldl
    (fun acc i => acc + (idx s.beta i - idx bNew i) ^ 2) 0
  let nW := (List.range (l + 1)).foldl (fun acc i => acc + idx s.beta i ^ 2) 0
  let endNorm1 := if ratioLT dW nW ctx.props.Eta then true else s.endNorm
  let best := ratioLT dW nW s.bestNorm
  let sc := scanClassify ctx.props.C (1 / 1000) l ctx.y bNew e1
  let ws := fillWS ctx.props.MaxSize ctx.rperm sc.SW sc.SIN sc.SC
  { e := e1
    beta := bNew
    betaNew := bNew
    betaBest := if best then bNew else s.betaBest
    GIN := outerGIN ctx s
    SW := ws.1
    SIN := ws.2
    SC := sc.SC
    iter := s.iter + 1
    endNorm := endNorm1
    bestNorm := if best then dW / nW else s.bestNorm
    SinceBest := if best then 0 else s.SinceBest + 1
    lastDeltaW := dW
    lastNormW := nW }

/-- One iteration of the `trainFULL` outer loop body
(`full-train.c:433-648`): build `GIN` and the sub-dataset, run `subIRWLS`,
and fold its returned snapshot back into the global state. -/
def outerIterate (ctx : OuterCtx) (s : OuterState) : OuterState :=
  outerMergeScan ctx s (subIRWLS (outerICtx ctx s) (outerEsub s) (outerBetasub ctx s))

/-- The `trainFULL` loop guard (`full-train.c:433`):
`endNorm == 0 ∧ SinceBest < 300`. -/
def outerCond (s : OuterState) : Bool :=
  !s.endNorm && decide (s.SinceBest < 300)

/-- The first `fuel` guarded steps of the `trainFULL` outer loop:
`Sum.inl` carries the state after `fuel` executed iterations with the
guard still never having failed, `Sum.inr` the state at which the guard
first failed. -/
def outerRun (ctx : OuterCtx) : Nat → OuterState → Sum OuterState OuterState
  | 0, s => Sum.inl s
  | fuel + 1, s =>
      if outerCond s then outerRun ctx fuel (outerIterate ctx s) else Sum.inr s

/-- The `trainFULL` outer loop with explicit fuel; `none` means the fuel
ran out before the guard became false (the loop has no iteration cap of
its own, so a run need not terminate). -/
def outerLoop (ctx : OuterCtx) : Nat → OuterState → Option OuterState
  | 0, s => if outerCond s then none else some s
  | fuel + 1, s =>
      if outerCond s then outerLoop ctx fuel (outerIterate ctx s) else some s

/-- `trainFULL` (`full-train.c:375-670`): run the outer loop from the
initial state; on termination the function returns the buffer `betaNew`
(line 668), the final iterate. -/
def trainFULL (ctx : OuterCtx) (fuel : Nat) : Option (List ℚ) :=
  (outerLoop ctx fuel (outerInit ctx)).map (fun s => s.betaNew)

/-- The identically-zero kernel: the linear kernel of a dataset whose
sparse sample vectors are all empty (dot products of zero vectors). -/
def kernelZero : Nat → Nat → ℚ := fun _ _ => 0

/-- The command-line default training properties of
`parseTrainFULLParameters` (`full-train.c:713-717`): `C = 1`,
`Eta = 0.001`, one thread, working-set size 500. -/
def propsStd : Props :=
  { C := 1, Eta := 1 / 1000, Threads := 1, MaxSize := 500 }

/-- Exact solver run on a one-sample dataset with the zero kernel whose
bias component follows the affine map `b ↦ 3/2·b` (kick-started to `-1`
from `b = 0`): for that dataset `H[0][0] = 1/a = e₀` and `e₀ = 1 − b`,
so the solver, a pure function of its arguments, reads the current bias
off the matrix.  It makes the global weights of `ctxOsc` follow an exact
geometric ray whose relative change is constantly `1/4`. -/
def solveOsc : SolveIn → List ℚ := fun inp =>
  let h00 := idx (inp.H.getD 0 []) 0
  let b := 1 - h00
  [0, if b = 0 then -1 else 3 / 2 * b]

/-- One-sample dataset (label `+1`), properties as the defaults except a
working-set limit of 10 (flag `-w 10`), zero kernel, geometric-ray solver:
this run never improves its best relative change after outer iteration 2
and therefore stops through the 300-iteration stagnation guard. -/
def ctxOsc : OuterCtx :=
  { l := 1, y := [1],
    props := { C := 1, Eta := 1 / 1000, Threads := 1, MaxSize := 10 },
    K := kernelZero, solve := solveOsc,
    rperm := fun _ => [] }

/-- The geometric factor `(3/2)^k` of the `ctxOsc` run, defined by direct
recursion on the multiplication of `ℚ` so that it evaluates cheaply. -/
def cpow : Nat → ℚ
  | 0 => 1
  | k + 1 => 3 / 2 * cpow k

/-- The `ctxOsc` outer state after outer iteration 1: the solver kick moved
the bias to `-3/2`, but iteration 1 compares against the zero vector
(`normW = 0`), so neither the convergence flag nor the best snapshot was
touched. -/
def oscSt1 : OuterState :=
  { e := [5 / 2]
    beta := [0, -3 / 2]
    betaNew := [0, -3 / 2]
    betaBest := [0, 0]
    GIN := List.replicate 11 0
    SW := [0]
    SIN := []
    SC := []
    iter := 1
    endNorm := false
    bestNorm := 100000000000000000000
    SinceBest := 1
    lastDeltaW := 9 / 4
    lastNormW := 0 }

/-- The `ctxOsc` outer state after outer iteration `k`, for `2 ≤ k`: the
bias follows the geometric ray `-(3/2)^k`, every iteration has relative
change exactly `1/4`, the best snapshot was recorded at iteration 2 and is
never improved on afterwards. -/
def oscSt (k : Nat) : OuterState :=
  { e := [1 + cpow k]
    beta := [0, -cpow k]
    betaNew := [0, -cpow k]
    betaBest := [0, -9 / 4]
    GIN := List.replicate 11 0
    SW := [0]
    SIN := []
    SC := []
    iter := k
    endNorm := false
    bestNorm := 1 / 4
    SinceBest := k - 2
    lastDeltaW := cpow (2 * k - 2) / 4
    lastNormW := cpow (2 * k - 2) }

/-- The sub-dataset solver context every outer iteration of the `ctxOsc`
run hands to `subIRWLS`: one sample with label `+1`, zero kernel, zeroed
frozen influence, and the geometric-ray solver. -/
def subCtxOsc : InnerCtx :=
  { l := 1, y := [1], C := 1, Threads := 1, K := fun _ _ => 0,
    GIN := List.replicate 11 0, solve := solveOsc }

/-- The inner solver state after `j` inner iterations (0 ≤ j ≤ 5) of the
`subIRWLS` call made at global bias `-(3/2)^k` of the `ctxOsc` run, for
`k ≥ 1`: each inner iteration advances the bias by another factor `3/2`;
the first inner iteration strictly improves the (initial `1e9`) best ratio
to `1/4` and every later one ties it, so the best snapshot is the first
iterate `[0, -(3/2)^(k+1)]`, which the call returns. -/
def innOsc (k j : Nat) : InnerState :=
  if j = 0 then
    { a := [1 / (1 + cpow k)]
      group := [1]
      beta := [0, -cpow k]
      betaNew := [0, 0]
      betaBest := [0, 0]
      e := [1 + cpow k]
      maxbeta := 0
      minbeta := 0
      iter := 0
      deltaW := 1000000000
      normW := 1
      itersSinceBestDW := 0
      bestDW := 1000000000
      S1comp := [0]
      S3comp := []
      G13 := [0, 0]
      lastSolveThreads := 0
      ompThreads := 1
      trace := [] }
  else
    { a := [1 / (1 + cpow (k + j))]
      group := [1]
      beta := [0, -cpow (k + j)]
      betaNew := [0, -cpow (k + j)]
      betaBest := [0, -cpow (k + 1)]
      e := [1 + cpow (k + j)]
      maxbeta := 0
      minbeta := 0
      iter := j
      deltaW := cpow (2 * k + 2 * j - 2) / 4
      normW := cpow (2 * k + 2 * j - 2)
      itersSinceBestDW := j - 1
      bestDW := 1 / 4
      S1comp := [0]
      S3comp := []
      G13 := [0, 0]
      lastSolveThreads := 1
      ompThreads := 1
      trace := (List.range j).map (fun t =>
        (cpow (2 * k + 2 * t) / 4, cpow (2 * k + 2 * t), [0, -cpow (k + t + 1)])) }

/-- The inner solver states of the very first `subIRWLS` call of the
`ctxOsc` run (global weights still zero): the solver kick moves the bias
to `-1` at inner iteration 1, but that iteration compares against the zero
vector (`normW = 0`, no best recorded); iteration 2 records the best
snapshot `[0, -3/2]` and iterations 3-5 tie without improving. -/
def innOscA (j : Nat) : InnerState :=
  match j with
  | 0 =>
    { a := [1], group := [1], beta := [0, 0], betaNew := [0, 0], betaBest := [0, 0],
      e := [1], maxbeta := 0, minbeta := 0, iter := 0, deltaW := 1000000000, normW := 1,
      itersSinceBestDW := 0, bestDW := 1000000000, S1comp := [0], S3comp := [], G13 := [0, 0],
      lastSolveThreads := 0, ompThreads := 1, trace := [] }
  | 1 =>
    { a := [1 / 2], group := [1], beta := [0, -1], betaNew := [0, -1], betaBest := [0, 0],
      e := [2], maxbeta := 0, minbeta := 0, iter := 1, deltaW := 1, normW := 0,
      itersSinceBestDW := 1, bestDW := 1000000000, S1comp := [0], S3comp := [], G13 := [0, 0],
      lastSolveThreads := 1, ompThreads := 1, trace := [(1, 0, [0, -1])] }
  | 2 =>
    { a := [2 / 5], group := [1], beta := [0, -3 / 2], betaNew := [0, -3 / 2],
      betaBest := [0, -3 / 2],
      e := [5 / 2], maxbeta := 0, minbeta := 0, iter := 2, deltaW := 1 / 4, normW := 1,
      itersSinceBestDW := 0, bestDW := 1 / 4, S1comp := [0], S3comp := [], G13 := [0, 0],
      lastSolveThreads := 1, ompThreads := 1,
      trace := [(1, 0, [0, -1]), (1 / 4, 1, [0, -3 / 2])] }
  | 3 =>
    { a := [4 / 13], group := [1], beta := [0, -9 / 4], betaNew := [0, -9 / 4],
      betaBest := [0, -3 / 2],
      e := [13 / 4], maxbeta := 0, minbeta := 0, iter := 3, deltaW := 9 / 16, normW := 9 / 4,
      itersSinceBestDW := 1, bestDW := 1 / 4, S1comp := [0], S3comp := [], G13 := [0, 0],
      lastSolveThreads := 1, ompThreads := 1,
      trace := [(1, 0, [0, -1]), (1 / 4, 1, [0, -3 / 2]), (9 / 16, 9 / 4, [0, -9 / 4])] }
  | 4 =>
    { a := [8 / 35], group := [1], beta := [0, -27 / 8], betaNew := [0, -27 / 8],
      betaBest := [0, -3 / 2],
      e := [35 / 8], maxbeta := 0, minbeta := 0, iter := 4, deltaW := 81 / 64, normW := 81 / 16,
      itersSinceBestDW := 2, bestDW := 1 / 4, S1comp := [0], S3comp := [], G13 := [0, 0],
      lastSolveThreads := 1, ompThreads := 1,
      trace := [(1, 0, [0, -1]), (1 / 4, 1, [0, -3 / 2]), (9 / 16, 9 / 4, [0, -9 / 4]),
        (81 / 64, 81 / 16, [0, -27 / 8])] }
  | _ =>
    { a := [16 / 97], group := [1], beta := [0, -81 / 16], betaNew := [0, -81 / 16],
      betaBest := [0, -3 / 2],
      e := [97 / 16], maxbeta := 0, minbeta := 0, iter := 5, deltaW := 729 / 256,
      normW := 729 / 64,
      itersSinceBestDW := 3, bestDW := 1 / 4, S1comp := [0], S3comp := [], G13 := [0, 0],
      lastSolveThreads := 1, ompThreads := 1,
      trace := [(1, 0, [0, -1]), (1 / 4, 1, [0, -3 / 2]), (9 / 16, 9 / 4, [0, -9 / 4]),
        (81 / 64, 81 / 16, [0, -27 / 8]), (729 / 256, 729 / 64, [0, -81 / 16])] }

/-- Solver returning the constant solution `(-1, 0)`: an exact solution of
a linear system the zero-kernel one-sample dataset can produce, with a
free-set weight outside the box `[0, C]`. -/
def solveNeg : SolveIn → List ℚ := fun _ => [-1, 0]

/-- One-sample dataset (label `+1`), default properties, zero kernel,
constant `(-1, 0)` solver: the run converges (relative change 0) with a
negative weight. -/
def ctxNeg : OuterCtx :=
  { l := 1, y := [1], props := propsStd, K := kernelZero, solve := solveNeg,
    rperm := fun _ => [] }

/-- Solver returning the constant zero solution. -/
def solveZero : SolveIn → List ℚ := fun _ => [0, 0]

/-- Two-sample dataset with one sample per class, working-set limit
`MaxSize = 1` (`-w 1`), zero kernel and zero solver: after one outer
iteration both samples are zero-category KKT violators of different
labels, so the six-category seeding puts both in the working set. -/
def ctxTiny : OuterCtx :=
  { l := 2, y := [1, -1],
    props := { C := 1, Eta := 1 / 1000, Threads := 1, MaxSize := 1 },
    K := kernelZero, solve := solveZero, rperm := fun _ => [] }

/-- The sub-dataset solver context of every outer iteration of the `ctxNeg`
run: one free sample with label `+1`, zero kernel, stale zeroed frozen
influence (the inactive set is empty, so `GIN` keeps its initial
zeros). -/
def ictxNegL : InnerCtx :=
  { l := 1, y := [1], C := 1, Threads := 1, K := fun _ _ => 0,
    GIN := List.replicate 501 0, solve := solveNeg }

/-- The inner solver states of the first `subIRWLS` call of the `ctxNeg`
run: the constant solver moves the weight to `-1` at inner iteration 1
(compared against the zero vector, `normW = 0`, so no best is recorded);
iteration 2 records the best snapshot `[-1, 0]` (ratio `0`), iterations
3-5 tie, and the minimum-iteration rule stops the loop at 5. -/
def innNeg (j : Nat) : InnerState :=
  match j with
  | 0 =>
    { a := [1], group := [1], beta := [0, 0], betaNew := [0, 0], betaBest := [0, 0],
      e := [1], maxbeta := 0, minbeta := 0, iter := 0, deltaW := 1000000000, normW := 1,
      itersSinceBestDW := 0, bestDW := 1000000000, S1comp := [0], S3comp := [], G13 := [0, 0],
      lastSolveThreads := 0, ompThreads := 1, trace := [] }
  | 1 =>
    { a := [1], group := [1], beta := [-1, 0], betaNew := [-1, 0], betaBest := [0, 0],
      e := [1], maxbeta := 0, minbeta := -1, iter := 1, deltaW := 1, normW := 0,
      itersSinceBestDW := 1, bestDW := 1000000000, S1comp := [0], S3comp := [], G13 := [0, 0],
      lastSolveThreads := 1, ompThreads := 1, trace := [(1, 0, [-1, 0])] }
  | n + 2 =>
    { a := [1], group := [1], beta := [-1, 0], betaNew := [-1, 0], betaBest := [-1, 0],
      e := [1], maxbeta := 0, minbeta := -1, iter := n + 2, deltaW := 0, normW := 1,
      itersSinceBestDW := n, bestDW := 0, S1comp := [0], S3comp := [], G13 := [0, 0],
      lastSolveThreads := 1, ompThreads := 1,
      trace := (1, 0, [-1, 0]) :: List.replicate (n + 1) (0, 1, [-1, 0]) }

/-- The `ctxNeg` outer state after outer iteration 1: the solver moved the
weight to `-1`, but the comparison against the zero vector (`normW = 0`)
left both the convergence flag and the best snapshot untouched. -/
def negSt1 : OuterState :=
  { e := [1], beta := [-1, 0], betaNew := [-1, 0], betaBest := [0, 0],
    GIN := List.replicate 501 0, SW := [0], SIN := [], SC := [], iter := 1,
    endNorm := false, bestNorm := 100000000000000000000, SinceBest := 1,
    lastDeltaW := 1, lastNormW := 0 }

/-- The inner solver states of the second `subIRWLS` call of the `ctxNeg`
run: the weights no longer move (`deltaW = 0`), iteration 1 records the
best ratio `0`, and the loop stops at the minimum of 5 iterations. -/
def innNegB (j : Nat) : InnerState :=
  match j with
  | 0 =>
    { a := [1], group := [1], beta := [-1, 0], betaNew := [0, 0], betaBest := [0, 0],
      e := [1], maxbeta := 0, minbeta := 0, iter := 0, deltaW := 1000000000, normW := 1,
      itersSinceBestDW := 0, bestDW := 1000000000, S1comp := [0], S3comp := [], G13 := [0, 0],
      lastSolveThreads := 0, ompThreads := 1, trace := [] }
  | n + 1 =>
    { a := [1], group := [1], beta := [-1, 0], betaNew := [-1, 0], betaBest := [-1, 0],
      e := [1], maxbeta := 0, minbeta := -1, iter := n + 1, deltaW := 0, normW := 1,
      itersSinceBestDW := n, bestDW := 0, S1comp := [0], S3comp := [], G13 := [0, 0],
      lastSolveThreads := 1, ompThreads := 1,
      trace := List.replicate (n + 1) (0, 1, [-1, 0]) }

/-- The `ctxNeg` outer state after outer iteration 2: the weights did not
move, the relative change `0/1` is below `Eta`, so the convergence flag is
set and the loop stops with the out-of-box weight `-1` in place. -/
def negSt2 : OuterState :=
  { e := [1], beta := [-1, 0], betaNew := [-1, 0], betaBest := [-1, 0],
    GIN := List.replicate 501 0, SW := [0], SIN := [], SC := [], iter := 2,
    endNorm := true, bestNorm := 0, SinceBest := 0,
    lastDeltaW := 0, lastNormW := 1 }

/-- The sub-dataset solver context of the first outer iteration of the
`ctxTiny` run: only sample 0 is in the working set. -/
def ictxTinyL : InnerCtx :=
  { l := 1, y := [1], C := 1, Threads := 1, K := fun _ _ => 0,
    GIN := [0, 0], solve := solveZero }

/-- The inner solver states of the `subIRWLS` call of the first outer
iteration of the `ctxTiny` run: the zero solver never moves the zero
weights (`deltaW = normW = 0`, no best recorded), and the loop stops at
the minimum of 5 iterations. -/
def innTiny (j : Nat) : InnerState :=
  match j with
  | 0 =>
    { a := [1], group := [1], beta := [0, 0], betaNew := [0, 0], betaBest := [0, 0],
      e := [1], maxbeta := 0, minbeta := 0, iter := 0, deltaW := 1000000000, normW := 1,
      itersSinceBestDW := 0, bestDW := 1000000000, S1comp := [0], S3comp := [], G13 := [0, 0],
      lastSolveThreads := 0, ompThreads := 1, trace := [] }
  | n + 1 =>
    { a := [1], group := [1], beta := [0, 0], betaNew := [0, 0], betaBest := [0, 0],
      e := [1], maxbeta := 0, minbeta := 0, iter := n + 1, deltaW := 0, normW := 0,
      itersSinceBestDW := n + 1, bestDW := 1000000000, S1comp := [0], S3comp := [],
      G13 := [0, 0], lastSolveThreads := 1, ompThreads := 1,
      trace := List.replicate (n + 1) (0, 0, [0, 0]) }

/-- The `ctxTiny` outer state after outer iteration 1: the weights did not
move, but both samples are zero-weight KKT violators of different labels,
so the six-category seeding put both into the next working set, exceeding
`MaxSize = 1`. -/
def tinySt1 : OuterState :=
  { e := [1, -1], beta := [0, 0, 0], betaNew := [0, 0, 0], betaBest := [0, 0, 0],
    GIN := [0, 0], SW := [0, 1], SIN := [], SC := [], iter := 1,
    endNorm := false, bestNorm := 100000000000000000000, SinceBest := 1,
    lastDeltaW := 0, lastNormW := 0 }

/-- A one-sample inner-solver context used to instantiate
universally-quantified theorems at a concrete input. -/
def ictxW : InnerCtx :=
  { l := 1, y := [1], C := 1, Threads := 1, K := kernelZero, GIN := [0, 0],
    solve := solveZero }

/-- The capped weight formula as the specification words it: `a_i = 0` for
`e_i·y_i < 0`, capped at `C·10⁴` when `e_i·y_i` is within `10⁻⁴` of zero,
and `y_i·C/e_i` otherwise. -/
def aSpecCapped (e y C : ℚ) : ℚ :=
  if e * y < 0 then 0 else if e * y < 1 / 10000 then C * 10000 else y * C / e

/-- The uncapped weight formula of the specification's per-sample initial
weighting: `a_i = y_i·C/e_i` if `e_i·y_i ≥ 0`, else `0`. -/
def aSpecUncapped (e y C : ℚ) : ℚ :=
  if e * y < 0 then 0 else y * C / e

/-- The found flag of scan category `c`: `0 ↦ found00` (label −1, zero
weight), `1 ↦ found01` (label −1, non-bound), `2 ↦ found02` (label −1,
upper bound), `3 ↦ found10`, `4 ↦ found11`, `5 ↦ found12` (same kinds for
label +1). -/
def flagOf (st : ScanOut) (c : Nat) : Bool :=
  match c with
  | 0 => st.f00
  | 1 => st.f01
  | 2 => st.f02
  | 3 => st.f10
  | 4 => st.f11
  | 5 => st.f12
  | _ => false

/-- Whether sample `i` belongs to KKT-violation category `c` of the
re-classification scan, the branch guard of `full-train.c:549-617`
including its else-chain context (category numbering as in `flagOf`). -/
def catViol (C th : ℚ) (y bN e : List ℚ) (c i : Nat) : Bool :=
  let yi := idx y i
  let b := idx bN i
  let ei := idx e i
  match c with
  | 0 => decide (¬b * yi = C ∧ b = 0 ∧ ei * yi > th ∧ yi = -1)
  | 1 => decide (¬b * yi = C ∧ ¬b = 0 ∧ b * yi ≠ 0 ∧ b * yi ≠ C ∧ |ei * yi| > th ∧ yi = -1)
  | 2 => decide (b * yi = C ∧ ei * yi < -1 * th ∧ yi = -1)
  | 3 => decide (¬b * yi = C ∧ b = 0 ∧ ei * yi > th ∧ yi = 1)
  | 4 => decide (¬b * yi = C ∧ ¬b = 0 ∧ b * yi ≠ 0 ∧ b * yi ≠ C ∧ |ei * yi| > th ∧ yi = 1)
  | 5 => decide (b * yi = C ∧ ei * yi < -1 * th ∧ yi = 1)
  | _ => false

/-- Sample `i` is, in scan order, the first violator of one of the six
violation categories (hence gets seeded into the next working set). -/
def isSeed (C th : ℚ) (y bN e : List ℚ) (i : Nat) : Bool :=
  (List.range 6).any (fun c =>
    catViol C th y bN e c i && !((List.range i).any (fun j => catViol C th y bN e c j)))

/-- Numeric value of a flag, used to count the set found flags. -/
def boolNat (b : Bool) : Nat := cond b 1 0

/-- The best-snapshot bookkeeping invariant of the `subIRWLS` loop: every
`(deltaW, normW, betaNew)` triple of the run history compares no lower
than the tracked best ratio, and the tracked snapshot is either still the
initial zero vector (with `bestDW` at its initial `1e9`) or the recorded
`betaNew` of a history entry attaining `bestDW` exactly. -/
def InnerBestInv (lp1 : Nat) (s : InnerState) : Prop :=
  (∀ t ∈ s.trace, ratioLT t.1 t.2.1 s.bestDW = false) ∧
    ((s.bestDW = 1000000000 ∧ s.betaBest = List.replicate lp1 0) ∨
      ∃ t ∈ s.trace, t.2.1 ≠ 0 ∧ t.1 / t.2.1 = s.bestDW ∧ t.2.2 = s.betaBest)

theorem ratioLT_iff {num den bound : ℚ} :
    ratioLT num den bound = true ↔ den ≠ 0 ∧ num / den < bound := by
  by_cases h : den = 0 <;> simp [ratioLT, h]

theorem ratioLT_false_iff {num den bound : ℚ} :
    ratioLT num den bound = false ↔ den = 0 ∨ ¬num / den < bound := by
  rw [← Bool.not_eq_true, ratioLT_iff]
  tauto

theorem innerStep_iter (ctx : InnerCtx) (s : InnerState) :
    (innerStep ctx s).iter = s.iter + 1 := rfl

theorem innerStep_trace (ctx : InnerCtx) (s : InnerState) :
    (innerStep ctx s).trace =
      s.trace ++ [(innerDeltaW ctx s, innerNormW ctx s, innerBetaNew ctx s)] := rfl

theorem innerStep_bestDW (ctx : InnerCtx) (s : InnerState) :
    (innerStep ctx s).bestDW =
      if ratioLT (innerDeltaW ctx s) (innerNormW ctx s) s.bestDW then
        innerDeltaW ctx s / innerNormW ctx s
      else s.bestDW := rfl

theorem innerStep_betaBest (ctx : InnerCtx) (s : InnerState) :
    (innerStep ctx s).betaBest =
      if ratioLT (innerDeltaW ctx s) (innerNormW ctx s) s.bestDW then
        innerBetaNew ctx s
      else s.betaBest := rfl

theorem innerCond_iter_lt {C : ℚ} {s : InnerState} (h : innerCond C s = true) :
    s.iter < 1000 := by
  simp only [innerCond, Bool.or_eq_true, Bool.and_eq_true, decide_eq_true_eq] at h
  rcases h with h | ⟨⟨_, h⟩, _⟩ <;> omega

theorem innerCond_false_of_ge {C : ℚ} {s : InnerState} (h : 1000 ≤ s.iter) :
    innerCond C s = false := by
  by_contra hc
  have := innerCond_iter_lt (C := C) (s := s) (by
    cases hcond : innerCond C s
    · exact absurd hcond hc
    · rfl)
  omega

theorem innerCond_false_iter_ge {C : ℚ} {s : InnerState} (h : innerCond C s = false) :
    5 ≤ s.iter := by
  by_contra hlt
  have : decide (s.iter < 5) = true := by simpa using by omega
  simp [innerCond, this] at h

theorem innerLoop_some (ctx : InnerCtx) :
    ∀ (fuel : Nat) (s : InnerState), 1000 ≤ s.iter + fuel → s.iter ≤ 1000 →
      ∃ s2, innerLoop ctx fuel s = some s2 ∧ innerCond ctx.C s2 = false ∧
        s.iter ≤ s2.iter ∧ s2.iter ≤ 1000 := by
  intro fuel
  induction fuel with
  | zero =>
      intro s h1 h2
      have hc : innerCond ctx.C s = false := innerCond_false_of_ge (by omega)
      exact ⟨s, by simp [innerLoop, hc], hc, le_refl _, h2⟩
  | succ n ih =>
      intro s h1 h2
      cases hc : innerCond ctx.C s with
      | false => exact ⟨s, by simp [innerLoop, hc], hc, le_refl _, h2⟩
      | true =>
          have hlt : s.iter < 1000 := innerCond_iter_lt hc
          obtain ⟨s2, hs2, hcond, hle, hub⟩ :=
            ih (innerStep ctx s) (by rw [innerStep_iter]; omega) (by rw [innerStep_iter]; omega)
          refine ⟨s2, ?_, hcond, ?_, hub⟩
          · simpa [innerLoop, hc] using hs2
          · rw [innerStep_iter] at hle; omega

theorem innerLoop_preserve (ctx : InnerCtx) (P : InnerState → Prop)
    (hstep : ∀ s, P s → P (innerStep ctx s)) :
    ∀ (fuel : Nat) (s s2 : InnerState), P s → innerLoop ctx fuel s = some s2 → P s2 := by
  intro fuel
  induction fuel with
  | zero =>
      intro s s2 hP h
      simp only [innerLoop] at h
      split at h
      · exact absurd h (by simp)
      · exact (Option.some.inj h) ▸ hP
  | succ n ih =>
      intro s s2 hP h
      simp only [innerLoop] at h
      split at h
      · exact ih _ _ (hstep s hP) h
      · exact (Option.some.inj h) ▸ hP

theorem innerBestInv_init (ctx : InnerCtx) (e beta : List ℚ) :
    InnerBestInv (ctx.l + 1) (innerInit ctx e beta) := by
  constructor
  · intro t ht
    simp [innerInit] at ht
  · left
    exact ⟨rfl, rfl⟩

theorem innerBestInv_step (ctx : InnerCtx) (lp1 : Nat) (s : InnerState)
    (h : InnerBestInv lp1 s) : InnerBestInv lp1 (innerStep ctx s) := by
  obtain ⟨h1, h2⟩ := h
  by_cases hb : ratioLT (innerDeltaW ctx s) (innerNormW ctx s) s.bestDW = true
  · obtain ⟨hden, hlt⟩ := ratioLT_iff.mp hb
    constructor
    · intro t ht
      rw [innerStep_trace] at ht
      rw [innerStep_bestDW, if_pos hb]
      rcases List.mem_append.mp ht with hold | hnew
      · rcases ratioLT_false_iff.mp (h1 t hold) with hz | hge
        · exact ratioLT_false_iff.mpr (Or.inl hz)
        · refine ratioLT_false_iff.mpr (Or.inr ?_)
          intro hcon
          exact hge (lt_trans hcon hlt)
      · have : t = (innerDeltaW ctx s, innerNormW ctx s, innerBetaNew ctx s) := by
          simpa using hnew
        subst this
        exact ratioLT_false_iff.mpr (Or.inr (lt_irrefl _))
    · right
      refine ⟨(innerDeltaW ctx s, innerNormW ctx s, innerBetaNew ctx s), ?_, hden, ?_, ?_⟩
      · rw [innerStep_trace]; simp
      · rw [innerStep_bestDW, if_pos hb]
      · rw [innerStep_betaBest, if_pos hb]
  · have hb' : ratioLT (innerDeltaW ctx s) (innerNormW ctx s) s.bestDW = false := by
      cases hx : ratioLT (innerDeltaW ctx s) (innerNormW ctx s) s.bestDW
      · rfl
      · exact absurd hx hb
    constructor
    · intro t ht
      rw [innerStep_trace] at ht
      rw [innerStep_bestDW, if_neg hb]
      rcases List.mem_append.mp ht with hold | hnew
      · exact h1 t hold
      · have : t = (innerDeltaW ctx s, innerNormW ctx s, innerBetaNew ctx s) := by
          simpa using hnew
        subst this
        exact hb'
    · rw [innerStep_bestDW, if_neg hb, innerStep_betaBest, if_neg hb]
      rcases h2 with hleft | ⟨t, ht, hprop⟩
      · exact Or.inl hleft
      · right
        exact ⟨t, by rw [innerStep_trace]; exact List.mem_append.mpr (Or.inl ht), hprop⟩

/-- C4: for every working-set sub-dataset and inputs, the `subIRWLS` loop
terminates: with fuel 1000 the run reaches a state where the guard is
false, having executed between 5 and 1000 iterations (`iter` counts the
executed iterations, starting at 0 and increasing by one per iteration);
the guard is exactly `iter < 5 ∨ ((minbeta < 0 ∨ maxbeta > C) ∧
iter < 1000 ∧ itersSinceBestDW < 5 ∧ deltaW/normW > 1e-6)`; and the
returned vector is the tracked best snapshot: no iteration of the run
history has a strictly lower relative-change ratio than the tracked best,
and the returned snapshot is the `betaNew` recorded at an iteration
attaining that best ratio (or the initial zero vector when no iteration
ever improved on the initial `1e9`). -/
theorem subIRWLS_terminates_returns_best (ctx : InnerCtx) (e beta : List ℚ) :
    ∃ s2, innerLoop ctx 1000 (innerInit ctx e beta) = some s2 ∧
      subIRWLS ctx e beta = s2.betaBest ∧
      5 ≤ s2.iter ∧ s2.iter ≤ 1000 ∧
      innerCond ctx.C s2 = false ∧
      (∀ s : InnerState, innerCond ctx.C s =
        (decide (s.iter < 5) ||
          ((decide (s.minbeta < 0) || decide (s.maxbeta > ctx.C)) && decide (s.iter < 1000) &&
            decide (s.itersSinceBestDW < 5) && ratioGT s.deltaW s.normW (1 / 1000000)))) ∧
      (∀ t ∈ s2.trace, ratioLT t.1 t.2.1 s2.bestDW = false) ∧
      ((s2.bestDW = 1000000000 ∧ s2.betaBest = List.replicate (ctx.l + 1) 0) ∨
        ∃ t ∈ s2.trace, t.2.1 ≠ 0 ∧ t.1 / t.2.1 = s2.bestDW ∧ t.2.2 = s2.betaBest) := by
  obtain ⟨s2, hsome, hcond, hle, hub⟩ :=
    innerLoop_some ctx 1000 (innerInit ctx e beta) (by simp [innerInit]) (by simp [innerInit])
  have hinv := innerLoop_preserve ctx (InnerBestInv (ctx.l + 1))
    (fun s hs => innerBestInv_step ctx _ s hs) 1000 _ s2 (innerBestInv_init ctx e beta) hsome
  exact ⟨s2, hsome, by simp [subIRWLS, hsome], innerCond_false_iter_ge hcond, hub, hcond,
    fun s => rfl, hinv.1, hinv.2⟩

/-- Witness for C4 at a concrete one-sample context. -/
theorem subIRWLS_terminates_returns_best_witness :
    ∃ s2, innerLoop ictxW 1000 (innerInit ictxW [1] [0, 0]) = some s2 ∧
      subIRWLS ictxW [1] [0, 0] = s2.betaBest ∧
      5 ≤ s2.iter ∧ s2.iter ≤ 1000 ∧
      innerCond ictxW.C s2 = false ∧
      (∀ s : InnerState, innerCond ictxW.C s =
        (decide (s.iter < 5) ||
          ((decide (s.minbeta < 0) || decide (s.maxbeta > ictxW.C)) && decide (s.iter < 1000) &&
            decide (s.itersSinceBestDW < 5) && ratioGT s.deltaW s.normW (1 / 1000000)))) ∧
      (∀ t ∈ s2.trace, ratioLT t.1 t.2.1 s2.bestDW = false) ∧
      ((s2.bestDW = 1000000000 ∧ s2.betaBest = List.replicate (ictxW.l + 1) 0) ∨
        ∃ t ∈ s2.trace, t.2.1 ≠ 0 ∧ t.1 / t.2.1 = s2.bestDW ∧ t.2.2 = s2.betaBest) :=
  subIRWLS_terminates_returns_best ictxW [1] [0, 0]

theorem outerRun_add_inl (ctx : OuterCtx) :
    ∀ (a b : Nat) (s s2 : OuterState), outerRun ctx a s = Sum.inl s2 →
      outerRun ctx (a + b) s = outerRun ctx b s2 := by
  intro a
  induction a with
  | zero =>
      intro b s s2 h
      simp only [outerRun] at h
      cases h
      simp [Nat.zero_add]
  | succ n ih =>
      intro b s s2 h
      have hadd : n + 1 + b = (n + b) + 1 := by omega
      rw [hadd]
      simp only [outerRun] at h ⊢
      split at h
      · rename_i hc
        rw [if_pos hc]
        exact ih b _ s2 h
      · exact absurd h (by simp)

theorem outerLoop_of_run (ctx : OuterCtx) :
    ∀ (n : Nat) (fuel : Nat) (s s2 : OuterState), outerRun ctx n s = Sum.inl s2 →
      outerCond s2 = false → n ≤ fuel → outerLoop ctx fuel s = some s2 := by
  intro n
  induction n with
  | zero =>
      intro fuel s s2 h hcond _
      simp only [outerRun] at h
      cases h
      cases fuel <;> simp [outerLoop, hcond]
  | succ n ih =>
      intro fuel s s2 h hcond hle
      simp only [outerRun] at h
      split at h
      · rename_i hc
        obtain ⟨f, rfl⟩ : ∃ f, fuel = f + 1 := ⟨fuel - 1, by omega⟩
        simp only [outerLoop, hc, if_pos]
        exact ih f _ s2 h hcond (by omega)
      · exact absurd h (by simp)

theorem innerLoop_exit (ctx : InnerCtx) (fuel : Nat) (s : InnerState)
    (h : innerCond ctx.C s = false) : innerLoop ctx fuel s = some s := by
  cases fuel <;> simp [innerLoop, h]

theorem innerLoop_cons (ctx : InnerCtx) (fuel : Nat) (s : InnerState)
    (h : innerCond ctx.C s = true) :
    innerLoop ctx (fuel + 1) s = innerLoop ctx fuel (innerStep ctx s) := by
  simp [innerLoop, h]

theorem subIRWLS_five (ctx : InnerCtx) (e beta : List ℚ)
    (s0 s1 s2 s3 s4 s5 : InnerState)
    (hi : innerInit ctx e beta = s0)
    (h0 : innerStep ctx s0 = s1) (h1 : innerStep ctx s1 = s2)
    (h2 : innerStep ctx s2 = s3) (h3 : innerStep ctx s3 = s4)
    (h4 : innerStep ctx s4 = s5)
    (hc0 : innerCond ctx.C s0 = true) (hc1 : innerCond ctx.C s1 = true)
    (hc2 : innerCond ctx.C s2 = true) (hc3 : innerCond ctx.C s3 = true)
    (hc4 : innerCond ctx.C s4 = true) (hc5 : innerCond ctx.C s5 = false) :
    subIRWLS ctx e beta = s5.betaBest := by
  unfold subIRWLS
  rw [hi, show (1000 : Nat) = 999 + 1 by norm_num, innerLoop_cons ctx 999 s0 hc0, h0,
    show (999 : Nat) = 998 + 1 by norm_num, innerLoop_cons ctx 998 s1 hc1, h1,
    show (998 : Nat) = 997 + 1 by norm_num, innerLoop_cons ctx 997 s2 hc2, h2,
    show (997 : Nat) = 996 + 1 by norm_num, innerLoop_cons ctx 996 s3 hc3, h3,
    show (996 : Nat) = 995 + 1 by norm_num, innerLoop_cons ctx 995 s4 hc4, h4,
    innerLoop_exit ctx 995 s5 hc5]
  rfl

theorem cpow_succ (k : Nat) : cpow (k + 1) = 3 / 2 * cpow k := rfl

theorem cpow_pos (k : Nat) : 0 < cpow k := by
  induction k with
  | zero => norm_num [cpow]
  | succ n ih => rw [cpow_succ]; positivity

theorem cpow_ne_zero (k : Nat) : cpow k ≠ 0 := ne_of_gt (cpow_pos k)

theorem cpow_add (a b : Nat) : cpow (a + b) = cpow a * cpow b := by
  induction a with
  | zero => simp [cpow]
  | succ n ih =>
      rw [show n + 1 + b = (n + b) + 1 by omega, cpow_succ, cpow_succ, ih]
      ring

theorem one_lt_cpow_succ (d : Nat) : 1 < cpow (d + 1) := by
  induction d with
  | zero => norm_num [cpow]
  | succ n ih =>
      rw [cpow_succ]
      nlinarith

theorem cpow_lt_cpow (a b : Nat) (h : a < b) : cpow a < cpow b := by
  obtain ⟨d, rfl⟩ : ∃ d, b = a + (d + 1) := ⟨b - a - 1, by omega⟩
  rw [cpow_add]
  have h1 := cpow_pos a
  have h2 := one_lt_cpow_succ d
  nlinarith

theorem cpow_quarter (m : Nat) : cpow m / 4 / cpow m = 1 / 4 := by
  have h := cpow_ne_zero m
  field_simp
  ring

theorem osc_ratioLT (m : Nat) (b : ℚ) :
    ratioLT (cpow m / 4) (cpow m) b = decide (1 / 4 < b) := by
  rw [ratioLT, if_neg (cpow_ne_zero m), cpow_quarter]

theorem innOsc_a (k j : Nat) : (innOsc k j).a = [1 / (1 + cpow (k + j))] := by
  unfold innOsc
  split
  · simp_all
  · rfl

theorem innOsc_beta (k j : Nat) : (innOsc k j).beta = [0, -cpow (k + j)] := by
  unfold innOsc
  split
  · simp_all
  · rfl

theorem innOsc_e (k j : Nat) : (innOsc k j).e = [1 + cpow (k + j)] := by
  unfold innOsc
  split
  · simp_all
  · rfl

theorem innOsc_S1 (k j : Nat) : (innOsc k j).S1comp = [0] := by
  unfold innOsc
  split <;> rfl

theorem innOsc_S3 (k j : Nat) : (innOsc k j).S3comp = [] := by
  unfold innOsc
  split <;> rfl

theorem innOsc_group (k j : Nat) : (innOsc k j).group = [1] := by
  unfold innOsc
  split <;> rfl

theorem osc_buildH (k j : Nat) :
    buildH subCtxOsc (innOsc k j) = [[1 + cpow (k + j), 1], [1, 0]] := by
  have hpos := cpow_pos (k + j)
  unfold buildH
  rw [innOsc_S1, innOsc_a]
  norm_num [subCtxOsc, idx, List.range_succ]

theorem osc_betaAux (k j : Nat) :
    innerBetaAux subCtxOsc (innOsc k j) = [0, -cpow (k + j + 1)] := by
  unfold innerBetaAux innerSolveIn
  show solveOsc _ = _
  unfold solveOsc
  rw [osc_buildH]
  show [0, if 1 - idx [1 + cpow (k + j), 1] 0 = 0 then -1
    else 3 / 2 * (1 - idx [1 + cpow (k + j), 1] 0)] = _
  have hidx : idx [1 + cpow (k + j), 1] 0 = 1 + cpow (k + j) := rfl
  rw [hidx, show (1 : ℚ) - (1 + cpow (k + j)) = -cpow (k + j) by ring,
    if_neg (by simpa using cpow_ne_zero (k + j)), cpow_succ]
  norm_num

theorem osc_betaNew (k j : Nat) :
    innerBetaNew subCtxOsc (innOsc k j) = [0, -cpow (k + j + 1)] := by
  unfold innerBetaNew
  rw [osc_betaAux, innOsc_S1, innOsc_S3]
  norm_num [subCtxOsc, idx, List.range_succ]
  rfl

theorem osc_deltaW (k j : Nat) :
    innerDeltaW subCtxOsc (innOsc k j) = cpow (2 * k + 2 * j) / 4 := by
  unfold innerDeltaW
  rw [osc_betaNew, innOsc_beta]
  norm_num [subCtxOsc, idx, List.range_succ, cpow_succ]
  have h2 : cpow (2 * k + 2 * j) = cpow (k + j) * cpow (k + j) := by
    rw [show 2 * k + 2 * j = k + j + (k + j) by omega]
    rw [cpow_add]
  rw [h2]
  ring

theorem osc_normW (k j : Nat) :
    innerNormW subCtxOsc (innOsc k j) = cpow (2 * k + 2 * j) := by
  unfold innerNormW
  rw [innOsc_beta]
  norm_num [subCtxOsc, idx, List.range_succ]
  have h2 : cpow (2 * k + 2 * j) = cpow (k + j) * cpow (k + j) := by
    rw [show 2 * k + 2 * j = k + j + (k + j) by omega]
    rw [cpow_add]
  rw [h2]
  ring

theorem osc_eupd (k j : Nat) :
    innerEUpd subCtxOsc (innOsc k j) = [1 + cpow (k + j + 1)] := by
  unfold innerEUpd
  rw [osc_betaNew, innOsc_beta, innOsc_e]
  norm_num [subCtxOsc, idx, List.range_succ, cpow_succ]

theorem osc_step_zero (k : Nat) :
    innerStep subCtxOsc (innOsc k 0) = innOsc k 1 := by
  have hp := cpow_pos (k + 1)
  have h1 : ¬((1 : ℚ) + cpow (k + 1) < 0) := by linarith
  have h2 : ¬((1 : ℚ) + cpow (k + 1) < 1 / 10000) := by linarith
  have h3 : ((1 : ℚ) + cpow (k + 1)) ≠ 0 := by linarith
  have hbd : (innOsc k 0).bestDW = 1000000000 := rfl
  have hbb : (innOsc k 0).betaBest = [0, 0] := rfl
  have hit : (innOsc k 0).iter = 0 := rfl
  have hstr : (innOsc k 0).itersSinceBestDW = 0 := rfl
  have htr : (innOsc k 0).trace = [] := rfl
  simp only [innerStep]
  rw [osc_betaAux, osc_betaNew, osc_deltaW, osc_normW, osc_eupd, innOsc_S1,
    innOsc_group, hbd, hbb, hit, hstr, htr, osc_ratioLT]
  norm_num [subCtxOsc, idx, aStep, List.range_succ, h1, h2, h3, thLSof, pow2floorlog,
    cpow_quarter]
  unfold innOsc
  norm_num [List.replicate, List.range_succ, Nat.log2, InnerState.mk.injEq, one_div]

theorem osc_step_succ (k j : Nat) (hj : 1 ≤ j) :
    innerStep subCtxOsc (innOsc k j) = innOsc k (j + 1) := by
  have hj0 : ¬(j = 0) := by omega
  have hp := cpow_pos (k + j + 1)
  have h1 : ¬((1 : ℚ) + cpow (k + j + 1) < 0) := by linarith
  have h2 : ¬((1 : ℚ) + cpow (k + j + 1) < 1 / 10000) := by linarith
  have h3 : ((1 : ℚ) + cpow (k + j + 1)) ≠ 0 := by linarith
  have hbd : (innOsc k j).bestDW = 1 / 4 := by
    unfold innOsc; rw [if_neg hj0]
  have hbb : (innOsc k j).betaBest = [0, -cpow (k + 1)] := by
    unfold innOsc; rw [if_neg hj0]
  have hit : (innOsc k j).iter = j := by
    unfold innOsc; rw [if_neg hj0]
  have hstr : (innOsc k j).itersSinceBestDW = j - 1 := by
    unfold innOsc; rw [if_neg hj0]
  have htr : (innOsc k j).trace = (List.range j).map (fun t =>
      (cpow (2 * k + 2 * t) / 4, cpow (2 * k + 2 * t), [0, -cpow (k + t + 1)])) := by
    unfold innOsc; rw [if_neg hj0]
  simp only [innerStep]
  rw [osc_betaAux, osc_betaNew, osc_deltaW, osc_normW, osc_eupd, innOsc_S1,
    innOsc_group, hbd, hbb, hit, hstr, htr, osc_ratioLT]
  norm_num [subCtxOsc, idx, aStep, List.range_succ, h1, h2, h3, thLSof, pow2floorlog,
    cpow_quarter]
  unfold innOsc
  rw [if_neg (show ¬(j + 1 = 0) by omega),
    show 2 * k + 2 * (j + 1) - 2 = 2 * k + 2 * j by omega,
    show j + 1 - 1 = j - 1 + 1 by omega]
  norm_num [List.replicate, List.range_succ, Nat.log2, InnerState.mk.injEq, one_div]
  rw [Nat.add_assoc]

theorem osc_init (k : Nat) :
    innerInit subCtxOsc [1 + cpow k] [0, -cpow k] = innOsc k 0 := by
  have hp := cpow_pos k
  have h1 : ¬((1 : ℚ) + cpow k < 0) := by linarith
  have h3 : ((1 : ℚ) + cpow k) ≠ 0 := by linarith
  simp only [innerInit]
  norm_num [subCtxOsc, idx, aInit, List.range_succ, h1, h3, div_eq_zero_iff]
  unfold innOsc
  norm_num [List.replicate, InnerState.mk.injEq, one_div]




theorem innOsc_iter (k j : Nat) : (innOsc k j).iter = j := by
  unfold innOsc
  split
  · simp_all
  · rfl

theorem innOsc_cond_lt (k j : Nat) (hj : j < 5) :
    innerCond subCtxOsc.C (innOsc k j) = true := by
  simp [innerCond, innOsc_iter, hj]

theorem innOsc_cond_five (k : Nat) : innerCond subCtxOsc.C (innOsc k 5) = false := by
  norm_num [innerCond, innOsc, subCtxOsc]

theorem osc_inner (k : Nat) :
    subIRWLS subCtxOsc [1 + cpow k] [0, -cpow k] = [0, -cpow (k + 1)] := by
  rw [subIRWLS_five subCtxOsc _ _ (innOsc k 0) (innOsc k 1) (innOsc k 2) (innOsc k 3)
    (innOsc k 4) (innOsc k 5) (osc_init k) (osc_step_zero k)
    (osc_step_succ k 1 (by omega)) (osc_step_succ k 2 (by omega))
    (osc_step_succ k 3 (by omega)) (osc_step_succ k 4 (by omega))
    (innOsc_cond_lt k 0 (by norm_num)) (innOsc_cond_lt k 1 (by norm_num))
    (innOsc_cond_lt k 2 (by norm_num)) (innOsc_cond_lt k 3 (by norm_num))
    (innOsc_cond_lt k 4 (by norm_num)) (innOsc_cond_five k)]
  rfl

theorem ratioLT_eval (num den bound r : ℚ) (hden : den ≠ 0) (hr : num / den = r) :
    ratioLT num den bound = decide (r < bound) := by
  rw [ratioLT, if_neg hden, hr]

theorem osc_merge (k : Nat) (hk : 2 ≤ k) :
    outerMergeScan ctxOsc (oscSt k) [0, -cpow (k + 1)] = oscSt (k + 1) := by
  have hp := cpow_pos k
  have hp1 := cpow_pos (k + 1)
  have hth : (1 : ℚ) / 1000 < 1 + 3 / 2 * cpow k := by linarith
  have hr : ∀ b : ℚ, ratioLT ((-cpow k + 3 / 2 * cpow k) ^ 2) (cpow k ^ 2) b =
      decide ((1 : ℚ) / 4 < b) := by
    intro b
    refine ratioLT_eval _ _ _ _ (pow_ne_zero 2 (cpow_ne_zero k)) ?_
    field_simp
    ring
  simp only [outerMergeScan]
  norm_num [ctxOsc, oscSt, idx, kernelZero, List.range_succ, scanClassify, scanStep,
    fillWS, outerGIN, cpow_succ, hth, hr]
  have h2 : cpow (2 * (k + 1) - 2) = cpow k ^ 2 := by
    rw [show 2 * (k + 1) - 2 = k + k by omega]
    rw [cpow_add]
    ring
  refine ⟨by omega, ?_, by rw [h2]⟩
  rw [h2]
  ring



theorem outerICtx_osc (k : Nat) : outerICtx ctxOsc (oscSt k) = subCtxOsc := by
  with_unfolding_all rfl

theorem outerEsub_osc (k : Nat) : outerEsub (oscSt k) = [1 + cpow k] := by
  with_unfolding_all rfl

theorem outerBetasub_osc (k : Nat) : outerBetasub ctxOsc (oscSt k) = [0, -cpow k] := by
  with_unfolding_all rfl

theorem osc_step (k : Nat) (hk : 2 ≤ k) :
    outerIterate ctxOsc (oscSt k) = oscSt (k + 1) := by
  unfold outerIterate
  rw [outerICtx_osc k, outerEsub_osc k, outerBetasub_osc k, osc_inner k, osc_merge k hk]

theorem outerRun_one (ctx : OuterCtx) (s : OuterState) (h : outerCond s = true) :
    outerRun ctx 1 s = Sum.inl (outerIterate ctx s) := by
  simp [outerRun, h]

theorem oscSt_cond (k : Nat) (h : k ≤ 301) : outerCond (oscSt k) = true := by
  simp only [outerCond, oscSt, Bool.not_false, Bool.true_and]
  simp only [decide_eq_true_eq]
  omega

theorem osc_chain : ∀ m : Nat, m ≤ 300 →
    outerRun ctxOsc m (oscSt 2) = Sum.inl (oscSt (2 + m)) := by
  intro m
  induction m with
  | zero => intro _; rfl
  | succ n ih =>
      intro hle
      rw [outerRun_add_inl ctxOsc n 1 _ _ (ih (by omega)),
        outerRun_one ctxOsc _ (oscSt_cond _ (by omega)),
        show 2 + n = n + 2 by omega, osc_step (n + 2) (by omega),
        show n + 2 + 1 = 2 + (n + 1) by omega]

theorem outerICtx_osc1 : outerICtx ctxOsc oscSt1 = subCtxOsc := by
  with_unfolding_all rfl

theorem outerEsub_osc1 : outerEsub oscSt1 = [1 + cpow 1] := by
  with_unfolding_all rfl

theorem outerBetasub_osc1 : outerBetasub ctxOsc oscSt1 = [0, -cpow 1] := by
  with_unfolding_all rfl

theorem outerICtx_init : outerICtx ctxOsc (outerInit ctxOsc) = subCtxOsc := by
  with_unfolding_all rfl

theorem outerEsub_init : outerEsub (outerInit ctxOsc) = [1] := by
  with_unfolding_all rfl

theorem outerBetasub_init : outerBetasub ctxOsc (outerInit ctxOsc) = [0, 0] := by
  with_unfolding_all rfl

set_option maxRecDepth 1000000 in
set_option maxHeartbeats 40000000 in
theorem osc_call1 : outerIterate ctxOsc (outerInit ctxOsc) = oscSt1 := by
  unfold outerIterate
  rw [outerICtx_init, outerEsub_init, outerBetasub_init,
    subIRWLS_five subCtxOsc [1] [0, 0] (innOscA 0) (innOscA 1) (innOscA 2) (innOscA 3)
      (innOscA 4) (innOscA 5)
      (by with_unfolding_all rfl) (by with_unfolding_all rfl)
      (by with_unfolding_all rfl) (by with_unfolding_all rfl)
      (by with_unfolding_all rfl) (by with_unfolding_all rfl)
      (by with_unfolding_all rfl) (by with_unfolding_all rfl)
      (by with_unfolding_all rfl) (by with_unfolding_all rfl)
      (by with_unfolding_all rfl) (by with_unfolding_all rfl),
    show (innOscA 5).betaBest = [0, -3 / 2] from rfl]
  with_unfolding_all rfl

set_option maxRecDepth 1000000 in
set_option maxHeartbeats 40000000 in
theorem osc_call2 : outerIterate ctxOsc oscSt1 = oscSt 2 := by
  unfold outerIterate
  rw [outerICtx_osc1, outerEsub_osc1, outerBetasub_osc1, osc_inner 1]
  with_unfolding_all rfl

theorem osc_final : outerLoop ctxOsc 310 (outerInit ctxOsc) = some (oscSt 302) := by
  have hA : outerRun ctxOsc 1 (outerInit ctxOsc) = Sum.inl oscSt1 := by
    rw [outerRun_one ctxOsc _ (by with_unfolding_all rfl), osc_call1]
  have hB : outerRun ctxOsc 1 oscSt1 = Sum.inl (oscSt 2) := by
    rw [outerRun_one ctxOsc _ (by with_unfolding_all rfl), osc_call2]
  have hrun : outerRun ctxOsc 302 (outerInit ctxOsc) = Sum.inl (oscSt 302) := by
    have e302 : (302 : Nat) = 1 + (1 + 300) := by norm_num
    rw [e302, outerRun_add_inl ctxOsc 1 (1 + 300) _ _ hA,
      outerRun_add_inl ctxOsc 1 300 _ _ hB, osc_chain 300 (le_refl 300)]
  refine outerLoop_of_run ctxOsc 302 310 _ _ hrun ?_ (by omega)
  simp only [outerCond, oscSt]
  norm_num

set_option maxRecDepth 100000 in
/-- C1: concrete run refuting the claim that a stagnation-guard stop
returns the tracked best snapshot.  The `ctxOsc` run stops through the
stagnation guard (`SinceBest = 300` with `endNorm` still false, after 302
outer iterations); its tracked best snapshot is `[0, -9/4]` (recorded at
outer iteration 2), yet the final iterate `betaNew = [0, -(3/2)^302]`
differs from the snapshot, and `trainFULL` returns that final iterate
`betaNew`, as the second conjunct states definitionally (the returned
buffer is the `betaNew` field, `full-train.c:668`). -/
theorem trainFULL_stagnation_returns_final_not_best_run :
    (outerLoop ctxOsc 310 (outerInit ctxOsc)).map
        (fun s => (s.SinceBest, s.endNorm, s.betaBest, decide (s.betaNew = s.betaBest))) =
      some (300, false, [0, -9 / 4], false) ∧
    trainFULL ctxOsc 310 =
      (outerLoop ctxOsc 310 (outerInit ctxOsc)).map (fun s => s.betaNew) := by
  constructor
  · rw [osc_final]
    have hne : ¬((oscSt 302).betaNew = (oscSt 302).betaBest) := by
      simp only [oscSt]
      intro h
      rw [List.cons.injEq, List.cons.injEq] at h
      have h2 : cpow 302 = 9 / 4 := by
        have h1 := h.2.1
        linarith
      have h3 : cpow 2 < cpow 302 := cpow_lt_cpow 2 302 (by omega)
      have h4 : cpow 2 = 9 / 4 := by norm_num [cpow]
      linarith
    simp only [Option.map_some', Option.some.injEq, Prod.mk.injEq]
    exact ⟨rfl, rfl, rfl, decide_eq_false hne⟩
  · rfl

theorem outerLoop_cons (ctx : OuterCtx) (fuel : Nat) (s : OuterState)
    (h : outerCond s = true) :
    outerLoop ctx (fuel + 1) s = outerLoop ctx fuel (outerIterate ctx s) := by
  simp [outerLoop, h]

theorem outerLoop_exit (ctx : OuterCtx) (fuel : Nat) (s : OuterState)
    (h : outerCond s = false) : outerLoop ctx fuel s = some s := by
  cases fuel <;> simp [outerLoop, h]

theorem neg_ictx_init : outerICtx ctxNeg (outerInit ctxNeg) = ictxNegL := by
  with_unfolding_all rfl

theorem neg_esub_init : outerEsub (outerInit ctxNeg) = [1] := by
  with_unfolding_all rfl

theorem neg_bsub_init : outerBetasub ctxNeg (outerInit ctxNeg) = [0, 0] := by
  with_unfolding_all rfl

theorem neg_ictx_1 : outerICtx ctxNeg negSt1 = ictxNegL := by
  with_unfolding_all rfl

theorem neg_esub_1 : outerEsub negSt1 = [1] := by
  with_unfolding_all rfl

theorem neg_bsub_1 : outerBetasub ctxNeg negSt1 = [-1, 0] := by
  with_unfolding_all rfl

theorem neg_inner1 : subIRWLS ictxNegL [1] [0, 0] = [-1, 0] := by
  rw [subIRWLS_five ictxNegL [1] [0, 0] (innNeg 0) (innNeg 1) (innNeg 2) (innNeg 3)
    (innNeg 4) (innNeg 5)
    (by with_unfolding_all rfl) (by with_unfolding_all rfl)
    (by with_unfolding_all rfl) (by with_unfolding_all rfl)
    (by with_unfolding_all rfl) (by with_unfolding_all rfl)
    (by with_unfolding_all rfl) (by with_unfolding_all rfl)
    (by with_unfolding_all rfl) (by with_unfolding_all rfl)
    (by with_unfolding_all rfl) (by with_unfolding_all rfl)]
  rfl

theorem neg_inner2 : subIRWLS ictxNegL [1] [-1, 0] = [-1, 0] := by
  rw [subIRWLS_five ictxNegL [1] [-1, 0] (innNegB 0) (innNegB 1) (innNegB 2) (innNegB 3)
    (innNegB 4) (innNegB 5)
    (by with_unfolding_all rfl) (by with_unfolding_all rfl)
    (by with_unfolding_all rfl) (by with_unfolding_all rfl)
    (by with_unfolding_all rfl) (by with_unfolding_all rfl)
    (by with_unfolding_all rfl) (by with_unfolding_all rfl)
    (by with_unfolding_all rfl) (by with_unfolding_all rfl)
    (by with_unfolding_all rfl) (by with_unfolding_all rfl)]
  rfl

theorem neg_call1 : outerIterate ctxNeg (outerInit ctxNeg) = negSt1 := by
  unfold outerIterate
  rw [neg_ictx_init, neg_esub_init, neg_bsub_init, neg_inner1]
  with_unfolding_all rfl

theorem neg_call2 : outerIterate ctxNeg negSt1 = negSt2 := by
  unfold outerIterate
  rw [neg_ictx_1, neg_esub_1, neg_bsub_1, neg_inner2]
  with_unfolding_all rfl

theorem tiny_ictx_init : outerICtx ctxTiny (outerInit ctxTiny) = ictxTinyL := by
  with_unfolding_all rfl

theorem tiny_esub_init : outerEsub (outerInit ctxTiny) = [1] := by
  with_unfolding_all rfl

theorem tiny_bsub_init : outerBetasub ctxTiny (outerInit ctxTiny) = [0, 0] := by
  with_unfolding_all rfl

theorem tiny_inner : subIRWLS ictxTinyL [1] [0, 0] = [0, 0] := by
  rw [subIRWLS_five ictxTinyL [1] [0, 0] (innTiny 0) (innTiny 1) (innTiny 2) (innTiny 3)
    (innTiny 4) (innTiny 5)
    (by with_unfolding_all rfl) (by with_unfolding_all rfl)
    (by with_unfolding_all rfl) (by with_unfolding_all rfl)
    (by with_unfolding_all rfl) (by with_unfolding_all rfl)
    (by with_unfolding_all rfl) (by with_unfolding_all rfl)
    (by with_unfolding_all rfl) (by with_unfolding_all rfl)
    (by with_unfolding_all rfl) (by with_unfolding_all rfl)]
  rfl

theorem tiny_call1 : outerIterate ctxTiny (outerInit ctxTiny) = tinySt1 := by
  unfold outerIterate
  rw [tiny_ictx_init, tiny_esub_init, tiny_bsub_init, tiny_inner]
  with_unfolding_all rfl

/-- C2: concrete run refuting the claim that a zero `‖β_old‖²` at the outer
convergence check is treated as immediate convergence.  At outer iteration
1 of the `ctxNeg` run the previous weight vector is the zero vector, so
`normW = 0` while `deltaW = 1`; the C comparison `deltaW/normW < Eta`
(IEEE `inf < Eta`) is false, hence `endNorm` stays 0, `SinceBest` becomes
1, and the loop guard still holds: the loop continues instead of stopping
successfully. -/
theorem trainFULL_zero_norm_continues_run :
    (outerIterate ctxNeg (outerInit ctxNeg)).lastNormW = 0 ∧
    (outerIterate ctxNeg (outerInit ctxNeg)).lastDeltaW = 1 ∧
    (outerIterate ctxNeg (outerInit ctxNeg)).endNorm = false ∧
    (outerIterate ctxNeg (outerInit ctxNeg)).SinceBest = 1 ∧
    outerCond (outerIterate ctxNeg (outerInit ctxNeg)) = true := by
  rw [neg_call1]
  exact ⟨rfl, rfl, rfl, rfl, rfl⟩

/-- C3 counterexample: the `ctxNeg` run converges (`endNorm = true`,
relative change below `Eta`) and `trainFULL` returns `β = [-1, 0]`, whose
sample weight violates the box constraint: `β₀·y₀ = -1 < 0`. -/
theorem trainFULL_box_violated_run :
    (trainFULL ctxNeg 5).map (fun v => idx v 0 * idx ctxNeg.y 0) = some (-1) ∧
    (outerLoop ctxNeg 5 (outerInit ctxNeg)).map (fun s => s.endNorm) = some true ∧
    ¬(0 : ℚ) ≤ -1 := by
  have hloop : outerLoop ctxNeg 5 (outerInit ctxNeg) = some negSt2 := by
    rw [show (5 : Nat) = 4 + 1 by norm_num,
      outerLoop_cons ctxNeg 4 _ (by with_unfolding_all rfl), neg_call1,
      show (4 : Nat) = 3 + 1 by norm_num,
      outerLoop_cons ctxNeg 3 _ (by with_unfolding_all rfl), neg_call2,
      outerLoop_exit ctxNeg 3 _ (by with_unfolding_all rfl)]
  refine ⟨?_, ?_, by norm_num⟩
  · unfold trainFULL
    rw [hloop]
    with_unfolding_all rfl
  · rw [hloop]
    rfl

/-- C5 counterexample: with `MaxSize = 1` (flag `-w 1`) the working set
built at the end of the first outer iteration of the `ctxTiny` run has two
samples (one seed per violated category), exceeding `MaxWorkingSize`. -/
theorem workingSet_exceeds_MaxSize_run :
    (outerIterate ctxTiny (outerInit ctxTiny)).SW.length = 2 ∧
    ctxTiny.props.MaxSize = 1 := by
  constructor
  · rw [tiny_call1]
    rfl
  · rfl

/-- C6 counterexample: at `e = 10⁻⁵`, `y = 1`, `C = 1` the premise of the
claimed cap holds (`e·y` is within `10⁻⁴` of zero and nonnegative), but
the initial weighting of `subIRWLS` divides instead of capping: it
produces `10⁵`, not `C·10⁴`. -/
theorem aInit_near_zero_uncapped :
    (0 : ℚ) ≤ 1 / 100000 * 1 ∧ (1 / 100000 * 1 : ℚ) < 1 / 10000 ∧
      aInit (1 / 100000) 1 1 = 100000 ∧ aInit (1 / 100000) 1 1 ≠ 1 * 10000 := by
  rw [aInit, if_neg (by norm_num)]
  norm_num

theorem scanStep_partition (C th : ℚ) (y bN e : List ℚ) (st : ScanOut) (i : Nat)
    (hy : idx y i = 1 ∨ idx y i = -1) :
    (scanStep C th y bN e st i).SW ++ (scanStep C th y bN e st i).SIN ++
      (scanStep C th y bN e st i).SC =
    st.SW ++ st.SIN ++ st.SC ++ [i] ∨
    (scanStep C th y bN e st i).SW ++ (scanStep C th y bN e st i).SIN ++
      (scanStep C th y bN e st i).SC =
    st.SW ++ (st.SIN ++ [i]) ++ st.SC ∨
    (scanStep C th y bN e st i).SW ++ (scanStep C th y bN e st i).SIN ++
      (scanStep C th y bN e st i).SC =
    (st.SW ++ [i]) ++ st.SIN ++ st.SC := by
  simp only [scanStep]
  split_ifs <;> simp_all

theorem scanClassify_partition (C th : ℚ) (y bN e : List ℚ) :
    ∀ l : Nat, (∀ i, i < l → idx y i = 1 ∨ idx y i = -1) →
    ((scanClassify C th l y bN e).SW ++ (scanClassify C th l y bN e).SIN ++
      (scanClassify C th l y bN e).SC).Perm (List.range l) := by
  intro l
  induction l with
  | zero => intro _; rfl
  | succ n ih =>
      intro hy
      unfold scanClassify at ih ⊢
      rw [show List.range (n + 1) = List.range n ++ [n] from List.range_succ n,
        List.foldl_append]
      set st := (List.range n).foldl (scanStep C th y bN e)
        ⟨[], [], [], false, false, false, false, false, false⟩ with hst
      simp only [List.foldl_cons, List.foldl_nil]
      have hbase : (st.SW ++ st.SIN ++ st.SC).Perm (List.range n) :=
        ih (fun i hi => hy i (by omega))
      have hmid : ∀ (u v w : List Nat) (a : Nat),
          (u ++ (v ++ [a]) ++ w).Perm (u ++ v ++ w ++ [a]) := by
        intro u v w a
        simp only [List.append_assoc]
        refine List.Perm.append_left u ?_
        refine List.Perm.append_left v ?_
        simpa using (List.perm_append_singleton a w).symm
      rcases scanStep_partition C th y bN e st n (hy n (by omega)) with h | h | h
      · rw [h]
        exact hbase.append_right [n]
      · rw [h]
        exact (hmid st.SW st.SIN st.SC n).trans (hbase.append_right [n])
      · rw [h]
        have h3 : (st.SW ++ [n]) ++ st.SIN ++ st.SC =
            st.SW ++ ([] ++ [n]) ++ (st.SIN ++ st.SC) := by simp
        rw [h3]
        refine (hmid st.SW [] (st.SIN ++ st.SC) n).trans ?_
        have h4 : st.SW ++ [] ++ (st.SIN ++ st.SC) ++ [n] =
            st.SW ++ st.SIN ++ st.SC ++ [n] := by simp
        rw [h4]
        exact hbase.append_right [n]

theorem flagOf_ge6 (st : ScanOut) (c : Nat) (hc : 6 ≤ c) : flagOf st c = false := by
  rcases c with _|_|_|_|_|_|c
  · omega
  · omega
  · omega
  · omega
  · omega
  · omega
  · rfl

theorem catViol_ge6 (C th : ℚ) (y bN e : List ℚ) (c i : Nat) (hc : 6 ≤ c) :
    catViol C th y bN e c i = false := by
  rcases c with _|_|_|_|_|_|c
  · omega
  · omega
  · omega
  · omega
  · omega
  · omega
  · rfl

theorem any_catViol_ge6 (C th : ℚ) (y bN e : List ℚ) (l : List Nat) (c : Nat) (hc : 6 ≤ c) :
    l.any (fun j => catViol C th y bN e c j) = false := by
  rw [List.any_eq_false]
  intro x _
  simp [catViol_ge6 C th y bN e c x hc]

theorem isSeed_true_of (C th : ℚ) (y bN e : List ℚ) (n c : Nat) (hc : c < 6)
    (hv : catViol C th y bN e c n = true)
    (hfl : (List.range n).any (fun j => catViol C th y bN e c j) = false) :
    isSeed C th y bN e n = true := by
  unfold isSeed
  rw [List.any_eq_true]
  exact ⟨c, by simpa using hc, by simp [hv, hfl]⟩

theorem isSeed_false_of (C th : ℚ) (y bN e : List ℚ) (n : Nat)
    (h : ∀ c, c < 6 → catViol C th y bN e c n = true →
      (List.range n).any (fun j => catViol C th y bN e c j) = true) :
    isSeed C th y bN e n = false := by
  unfold isSeed
  rw [List.any_eq_false]
  intro c hcmem
  have hc : c < 6 := by simpa using hcmem
  by_cases hv : catViol C th y bN e c n = true
  · simp [hv, h c hc hv]
  · simp [Bool.eq_false_iff.mpr hv]

theorem flag_update (C th : ℚ) (y bN e : List ℚ) (st st' : ScanOut) (n : Nat)
    (hf : ∀ c, flagOf st c = (List.range n).any (fun j => catViol C th y bN e c j))
    (hupd : ∀ c, c < 6 → flagOf st' c = (flagOf st c || catViol C th y bN e c n)) :
    ∀ c, flagOf st' c = (List.range (n + 1)).any (fun j => catViol C th y bN e c j) := by
  intro c
  by_cases hc : c < 6
  · rw [hupd c hc, hf c, show List.range (n + 1) = List.range n ++ [n] from List.range_succ n,
      List.any_append]
    simp
  · rw [flagOf_ge6 st' c (by omega), any_catViol_ge6 C th y bN e _ c (by omega)]

theorem sw_update_seed (C th : ℚ) (y bN e : List ℚ) (sw : List Nat) (n : Nat)
    (hsw : sw = (List.range n).filter (isSeed C th y bN e))
    (hseed : isSeed C th y bN e n = true) :
    sw ++ [n] = (List.range (n + 1)).filter (isSeed C th y bN e) := by
  rw [show List.range (n + 1) = List.range n ++ [n] from List.range_succ n,
    List.filter_append, ← hsw]
  simp [List.filter_cons, hseed]

theorem sw_update_skip (C th : ℚ) (y bN e : List ℚ) (sw : List Nat) (n : Nat)
    (hsw : sw = (List.range n).filter (isSeed C th y bN e))
    (hseed : isSeed C th y bN e n = false) :
    sw = (List.range (n + 1)).filter (isSeed C th y bN e) := by
  rw [show List.range (n + 1) = List.range n ++ [n] from List.range_succ n,
    List.filter_append, ← hsw]
  simp [List.filter_cons, hseed]

theorem catViol0_y (C th : ℚ) (y bN e : List ℚ) (i : Nat)
    (h : catViol C th y bN e 0 i = true) : idx y i = -1 := by
  simp only [catViol, decide_eq_true_eq] at h
  exact h.2.2.2

theorem catViol1_y (C th : ℚ) (y bN e : List ℚ) (i : Nat)
    (h : catViol C th y bN e 1 i = true) : idx y i = -1 := by
  simp only [catViol, decide_eq_true_eq] at h
  exact h.2.2.2.2.2

theorem catViol2_y (C th : ℚ) (y bN e : List ℚ) (i : Nat)
    (h : catViol C th y bN e 2 i = true) : idx y i = -1 := by
  simp only [catViol, decide_eq_true_eq] at h
  exact h.2.2

theorem catViol3_y (C th : ℚ) (y bN e : List ℚ) (i : Nat)
    (h : catViol C th y bN e 3 i = true) : idx y i = 1 := by
  simp only [catViol, decide_eq_true_eq] at h
  exact h.2.2.2

theorem catViol4_y (C th : ℚ) (y bN e : List ℚ) (i : Nat)
    (h : catViol C th y bN e 4 i = true) : idx y i = 1 := by
  simp only [catViol, decide_eq_true_eq] at h
  exact h.2.2.2.2.2

theorem catViol5_y (C th : ℚ) (y bN e : List ℚ) (i : Nat)
    (h : catViol C th y bN e 5 i = true) : idx y i = 1 := by
  simp only [catViol, decide_eq_true_eq] at h
  exact h.2.2

set_option maxHeartbeats 3200000 in
theorem scanStep_char (C th : ℚ) (y bN e : List ℚ) (st : ScanOut) (n : Nat)
    (hsw : st.SW = (List.range n).filter (isSeed C th y bN e))
    (hf : ∀ c, flagOf st c = (List.range n).any (fun j => catViol C th y bN e c j)) :
    (scanStep C th y bN e st n).SW = (List.range (n + 1)).filter (isSeed C th y bN e) ∧
    ∀ c, flagOf (scanStep C th y bN e st n) c =
      (List.range (n + 1)).any (fun j => catViol C th y bN e c j) := by
  simp only [scanStep]
  split_ifs with h1 h2 h3 h4 h5 h6 h7 h8 h9 h10 h11 h12
  · have hv2 : catViol C th y bN e 2 n = true := by
      simp only [catViol, decide_eq_true_eq]
      exact ⟨h1, h2, h3.1⟩
    have hv0 : catViol C th y bN e 0 n = false := by
      simp only [catViol]
      rw [decide_eq_false_iff_not]
      intro hcon
      exact hcon.1 h1
    have hv1 : catViol C th y bN e 1 n = false := by
      simp only [catViol]
      rw [decide_eq_false_iff_not]
      intro hcon
      exact hcon.1 h1
    have hv3 : catViol C th y bN e 3 n = false := by
      simp only [catViol]
      rw [decide_eq_false_iff_not]
      intro hcon
      exact hcon.1 h1
    have hv4 : catViol C th y bN e 4 n = false := by
      simp only [catViol]
      rw [decide_eq_false_iff_not]
      intro hcon
      exact hcon.1 h1
    have hv5 : catViol C th y bN e 5 n = false := by
      simp only [catViol]
      rw [decide_eq_false_iff_not]
      intro hcon
      have hx := hcon.2.2
      rw [h3.1] at hx
      norm_num at hx
    have hany : (List.range n).any (fun j => catViol C th y bN e 2 j) = false := by
      rw [← hf 2]
      exact h3.2
    refine ⟨sw_update_seed C th y bN e st.SW n hsw
        (isSeed_true_of C th y bN e n 2 (by omega) hv2 hany),
      flag_update C th y bN e st _ n hf ?_⟩
    intro c hc
    interval_cases c <;> simp only [flagOf] <;>
      simp [hv0, hv1, hv2, hv3, hv4, hv5, h3.2]
  · have hv5 : catViol C th y bN e 5 n = true := by
      simp only [catViol, decide_eq_true_eq]
      exact ⟨h1, h2, h4.1⟩
    have hv0 : catViol C th y bN e 0 n = false := by
      simp only [catViol]
      rw [decide_eq_false_iff_not]
      intro hcon
      exact hcon.1 h1
    have hv1 : catViol C th y bN e 1 n = false := by
      simp only [catViol]
      rw [decide_eq_false_iff_not]
      intro hcon
      exact hcon.1 h1
    have hv3 : catViol C th y bN e 3 n = false := by
      simp only [catViol]
      rw [decide_eq_false_iff_not]
      intro hcon
      exact hcon.1 h1
    have hv4 : catViol C th y bN e 4 n = false := by
      simp only [catViol]
      rw [decide_eq_false_iff_not]
      intro hcon
      exact hcon.1 h1
    have hv2 : catViol C th y bN e 2 n = false := by
      simp only [catViol]
      rw [decide_eq_false_iff_not]
      intro hcon
      have hx := hcon.2.2
      rw [h4.1] at hx
      norm_num at hx
    have hany : (List.range n).any (fun j => catViol C th y bN e 5 j) = false := by
      rw [← hf 5]
      exact h4.2
    refine ⟨sw_update_seed C th y bN e st.SW n hsw
        (isSeed_true_of C th y bN e n 5 (by omega) hv5 hany),
      flag_update C th y bN e st _ n hf ?_⟩
    intro c hc
    interval_cases c <;> simp only [flagOf] <;>
      simp [hv0, hv1, hv2, hv3, hv4, hv5, h4.2]
  · have hv0 : catViol C th y bN e 0 n = false := by
      simp only [catViol]
      rw [decide_eq_false_iff_not]
      intro hcon
      exact hcon.1 h1
    have hv1 : catViol C th y bN e 1 n = false := by
      simp only [catViol]
      rw [decide_eq_false_iff_not]
      intro hcon
      exact hcon.1 h1
    have hv3 : catViol C th y bN e 3 n = false := by
      simp only [catViol]
      rw [decide_eq_false_iff_not]
      intro hcon
      exact hcon.1 h1
    have hv4 : catViol C th y bN e 4 n = false := by
      simp only [catViol]
      rw [decide_eq_false_iff_not]
      intro hcon
      exact hcon.1 h1
    have hseed : isSeed C th y bN e n = false := by
      refine isSeed_false_of C th y bN e n ?_
      intro c hc hv
      interval_cases c
      · simp [hv0] at hv
      · simp [hv1] at hv
      · rw [← hf 2]
        cases hb : st.f02 with
        | false => exact absurd ⟨catViol2_y C th y bN e n hv, hb⟩ h3
        | true => exact hb
      · simp [hv3] at hv
      · simp [hv4] at hv
      · rw [← hf 5]
        cases hb : st.f12 with
        | false => exact absurd ⟨catViol5_y C th y bN e n hv, hb⟩ h4
        | true => exact hb
    refine ⟨sw_update_skip C th y bN e st.SW n hsw hseed,
      flag_update C th y bN e st _ n hf ?_⟩
    intro c hc
    interval_cases c
    · simp only [flagOf]
      simp [hv0]
    · simp only [flagOf]
      simp [hv1]
    · simp only [flagOf]
      cases hx : catViol C th y bN e 2 n with
      | false => simp
      | true =>
          cases hb : st.f02 with
          | false => exact absurd ⟨catViol2_y C th y bN e n hx, hb⟩ h3
          | true => simp
    · simp only [flagOf]
      simp [hv3]
    · simp only [flagOf]
      simp [hv4]
    · simp only [flagOf]
      cases hx : catViol C th y bN e 5 n with
      | false => simp
      | true =>
          cases hb : st.f12 with
          | false => exact absurd ⟨catViol5_y C th y bN e n hx, hb⟩ h4
          | true => simp
  · have hv0 : catViol C th y bN e 0 n = false := by
      simp only [catViol]
      rw [decide_eq_false_iff_not]
      intro hcon
      exact hcon.1 h1
    have hv1 : catViol C th y bN e 1 n = false := by
      simp only [catViol]
      rw [decide_eq_false_iff_not]
      intro hcon
      exact hcon.1 h1
    have hv3 : catViol C th y bN e 3 n = false := by
      simp only [catViol]
      rw [decide_eq_false_iff_not]
      intro hcon
      exact hcon.1 h1
    have hv4 : catViol C th y bN e 4 n = false := by
      simp only [catViol]
      rw [decide_eq_false_iff_not]
      intro hcon
      exact hcon.1 h1
    have hv2 : catViol C th y bN e 2 n = false := by
      simp only [catViol]
      rw [decide_eq_false_iff_not]
      intro hcon
      exact h2 hcon.2.1
    have hv5 : catViol C th y bN e 5 n = false := by
      simp only [catViol]
      rw [decide_eq_false_iff_not]
      intro hcon
      exact h2 hcon.2.1
    have hseed : isSeed C th y bN e n = false := by
      refine isSeed_false_of C th y bN e n ?_
      intro c hc hv
      interval_cases c <;> simp_all
    refine ⟨sw_update_skip C th y bN e st.SW n hsw hseed,
      flag_update C th y bN e st _ n hf ?_⟩
    intro c hc
    interval_cases c <;> simp only [flagOf] <;> simp [hv0, hv1, hv2, hv3, hv4, hv5]
  · have hv0 : catViol C th y bN e 0 n = true := by
      simp only [catViol, decide_eq_true_eq]
      exact ⟨h1, h5, h6, h7.1⟩
    have hv2 : catViol C th y bN e 2 n = false := by
      simp only [catViol]
      rw [decide_eq_false_iff_not]
      intro hcon
      exact h1 hcon.1
    have hv5 : catViol C th y bN e 5 n = false := by
      simp only [catViol]
      rw [decide_eq_false_iff_not]
      intro hcon
      exact h1 hcon.1
    have hv1 : catViol C th y bN e 1 n = false := by
      simp only [catViol]
      rw [decide_eq_false_iff_not]
      intro hcon
      exact hcon.2.1 h5
    have hv4 : catViol C th y bN e 4 n = false := by
      simp only [catViol]
      rw [decide_eq_false_iff_not]
      intro hcon
      exact hcon.2.1 h5
    have hv3 : catViol C th y bN e 3 n = false := by
      simp only [catViol]
      rw [decide_eq_false_iff_not]
      intro hcon
      have hx := hcon.2.2.2
      rw [h7.1] at hx
      norm_num at hx
    have hany : (List.range n).any (fun j => catViol C th y bN e 0 j) = false := by
      rw [← hf 0]
      exact h7.2
    refine ⟨sw_update_seed C th y bN e st.SW n hsw
        (isSeed_true_of C th y bN e n 0 (by omega) hv0 hany),
      flag_update C th y bN e st _ n hf ?_⟩
    intro c hc
    interval_cases c <;> simp only [flagOf] <;>
      simp [hv0, hv1, hv2, hv3, hv4, hv5, h7.2]
  · have hv3 : catViol C th y bN e 3 n = true := by
      simp only [catViol, decide_eq_true_eq]
      exact ⟨h1, h5, h6, h8.1⟩
    have hv2 : catViol C th y bN e 2 n = false := by
      simp only [catViol]
      rw [decide_eq_false_iff_not]
      intro hcon
      exact h1 hcon.1
    have hv5 : catViol C th y bN e 5 n = false := by
      simp only [catViol]
      rw [decide_eq_false_iff_not]
      intro hcon
      exact h1 hcon.1
    have hv1 : catViol C th y bN e 1 n = false := by
      simp only [catViol]
      rw [decide_eq_false_iff_not]
      intro hcon
      exact hcon.2.1 h5
    have hv4 : catViol C th y bN e 4 n = false := by
      simp only [catViol]
      rw [decide_eq_false_iff_not]
      intro hcon
      exact hcon.2.1 h5
    have hv0 : catViol C th y bN e 0 n = false := by
      simp only [catViol]
      rw [decide_eq_false_iff_not]
      intro hcon
      have hx := hcon.2.2.2
      rw [h8.1] at hx
      norm_num at hx
    have hany : (List.range n).any (fun j => catViol C th y bN e 3 j) = false := by
      rw [← hf 3]
      exact h8.2
    refine ⟨sw_update_seed C th y bN e st.SW n hsw
        (isSeed_true_of C th y bN e n 3 (by omega) hv3 hany),
      flag_update C th y bN e st _ n hf ?_⟩
    intro c hc
    interval_cases c <;> simp only [flagOf] <;>
      simp [hv0, hv1, hv2, hv3, hv4, hv5, h8.2]
  · have hv2 : catViol C th y bN e 2 n = false := by
      simp only [catViol]
      rw [decide_eq_false_iff_not]
      intro hcon
      exact h1 hcon.1
    have hv5 : catViol C th y bN e 5 n = false := by
      simp only [catViol]
      rw [decide_eq_false_iff_not]
      intro hcon
      exact h1 hcon.1
    have hv1 : catViol C th y bN e 1 n = false := by
      simp only [catViol]
      rw [decide_eq_false_iff_not]
      intro hcon
      exact hcon.2.1 h5
    have hv4 : catViol C th y bN e 4 n = false := by
      simp only [catViol]
      rw [decide_eq_false_iff_not]
      intro hcon
      exact hcon.2.1 h5
    have hseed : isSeed C th y bN e n = false := by
      refine isSeed_false_of C th y bN e n ?_
      intro c hc hv
      interval_cases c
      · rw [← hf 0]
        cases hb : st.f00 with
        | false => exact absurd ⟨catViol0_y C th y bN e n hv, hb⟩ h7
        | true => exact hb
      · simp [hv1] at hv
      · simp [hv2] at hv
      · rw [← hf 3]
        cases hb : st.f10 with
        | false => exact absurd ⟨catViol3_y C th y bN e n hv, hb⟩ h8
        | true => exact hb
      · simp [hv4] at hv
      · simp [hv5] at hv
    refine ⟨sw_update_skip C th y bN e st.SW n hsw hseed,
      flag_update C th y bN e st _ n hf ?_⟩
    intro c hc
    interval_cases c
    · simp only [flagOf]
      cases hx : catViol C th y bN e 0 n with
      | false => simp
      | true =>
          cases hb : st.f00 with
          | false => exact absurd ⟨catViol0_y C th y bN e n hx, hb⟩ h7
          | true => simp
    · simp only [flagOf]
      simp [hv1]
    · simp only [flagOf]
      simp [hv2]
    · simp only [flagOf]
      cases hx : catViol C th y bN e 3 n with
      | false => simp
      | true =>
          cases hb : st.f10 with
          | false => exact absurd ⟨catViol3_y C th y bN e n hx, hb⟩ h8
          | true => simp
    · simp only [flagOf]
      simp [hv4]
    · simp only [flagOf]
      simp [hv5]
  · have hv2 : catViol C th y bN e 2 n = false := by
      simp only [catViol]
      rw [decide_eq_false_iff_not]
      intro hcon
      exact h1 hcon.1
    have hv5 : catViol C th y bN e 5 n = false := by
      simp only [catViol]
      rw [decide_eq_false_iff_not]
      intro hcon
      exact h1 hcon.1
    have hv1 : catViol C th y bN e 1 n = false := by
      simp only [catViol]
      rw [decide_eq_false_iff_not]
      intro hcon
      exact hcon.2.1 h5
    have hv4 : catViol C th y bN e 4 n = false := by
      simp only [catViol]
      rw [decide_eq_false_iff_not]
      intro hcon
      exact hcon.2.1 h5
    have hv0 : catViol C th y bN e 0 n = false := by
      simp only [catViol]
      rw [decide_eq_false_iff_not]
      intro hcon
      exact h6 hcon.2.2.1
    have hv3 : catViol C th y bN e 3 n = false := by
      simp only [catViol]
      rw [decide_eq_false_iff_not]
      intro hcon
      exact h6 hcon.2.2.1
    have hseed : isSeed C th y bN e n = false := by
      refine isSeed_false_of C th y bN e n ?_
      intro c hc hv
      interval_cases c <;> simp_all
    refine ⟨sw_update_skip C th y bN e st.SW n hsw hseed,
      flag_update C th y bN e st _ n hf ?_⟩
    intro c hc
    interval_cases c <;> simp only [flagOf] <;> simp [hv0, hv1, hv2, hv3, hv4, hv5]
  · have hv1 : catViol C th y bN e 1 n = true := by
      simp only [catViol, decide_eq_true_eq]
      exact ⟨h1, h5, h9.1, h9.2, h10, h11.1⟩
    have hv2 : catViol C th y bN e 2 n = false := by
      simp only [catViol]
      rw [decide_eq_false_iff_not]
      intro hcon
      exact h1 hcon.1
    have hv5 : catViol C th y bN e 5 n = false := by
      simp only [catViol]
      rw [decide_eq_false_iff_not]
      intro hcon
      exact h1 hcon.1
    have hv0 : catViol C th y bN e 0 n = false := by
      simp only [catViol]
      rw [decide_eq_false_iff_not]
      intro hcon
      exact h5 hcon.2.1
    have hv3 : catViol C th y bN e 3 n = false := by
      simp only [catViol]
      rw [decide_eq_false_iff_not]
      intro hcon
      exact h5 hcon.2.1
    have hv4 : catViol C th y bN e 4 n = false := by
      simp only [catViol]
      rw [decide_eq_false_iff_not]
      intro hcon
      have hx := hcon.2.2.2.2.2
      rw [h11.1] at hx
      norm_num at hx
    have hany : (List.range n).any (fun j => catViol C th y bN e 1 j) = false := by
      rw [← hf 1]
      exact h11.2
    refine ⟨sw_update_seed C th y bN e st.SW n hsw
        (isSeed_true_of C th y bN e n 1 (by omega) hv1 hany),
      flag_update C th y bN e st _ n hf ?_⟩
    intro c hc
    interval_cases c <;> simp only [flagOf] <;>
      simp [hv0, hv1, hv2, hv3, hv4, hv5, h11.2]
  · have hv4 : catViol C th y bN e 4 n = true := by
      simp only [catViol, decide_eq_true_eq]
      exact ⟨h1, h5, h9.1, h9.2, h10, h12.1⟩
    have hv2 : catViol C th y bN e 2 n = false := by
      simp only [catViol]
      rw [decide_eq_false_iff_not]
      intro hcon
      exact h1 hcon.1
    have hv5 : catViol C th y bN e 5 n = false := by
      simp only [catViol]
      rw [decide_eq_false_iff_not]
      intro hcon
      exact h1 hcon.1
    have hv0 : catViol C th y bN e 0 n = false := by
      simp only [catViol]
      rw [decide_eq_false_iff_not]
      intro hcon
      exact h5 hcon.2.1
    have hv3 : catViol C th y bN e 3 n = false := by
      simp only [catViol]
      rw [decide_eq_false_iff_not]
      intro hcon
      exact h5 hcon.2.1
    have hv1 : catViol C th y bN e 1 n = false := by
      simp only [catViol]
      rw [decide_eq_false_iff_not]
      intro hcon
      have hx := hcon.2.2.2.2.2
      rw [h12.1] at hx
      norm_num at hx
    have hany : (List.range n).any (fun j => catViol C th y bN e 4 j) = false := by
      rw [← hf 4]
      exact h12.2
    refine ⟨sw_update_seed C th y bN e st.SW n hsw
        (isSeed_true_of C th y bN e n 4 (by omega) hv4 hany),
      flag_update C th y bN e st _ n hf ?_⟩
    intro c hc
    interval_cases c <;> simp only [flagOf] <;>
      simp [hv0, hv1, hv2, hv3, hv4, hv5, h12.2]
  · have hv2 : catViol C th y bN e 2 n = false := by
      simp only [catViol]
      rw [decide_eq_false_iff_not]
      intro hcon
      exact h1 hcon.1
    have hv5 : catViol C th y bN e 5 n = false := by
      simp only [catViol]
      rw [decide_eq_false_iff_not]
      intro hcon
      exact h1 hcon.1
    have hv0 : catViol C th y bN e 0 n = false := by
      simp only [catViol]
      rw [decide_eq_false_iff_not]
      intro hcon
      exact h5 hcon.2.1
    have hv3 : catViol C th y bN e 3 n = false := by
      simp only [catViol]
      rw [decide_eq_false_iff_not]
      intro hcon
      exact h5 hcon.2.1
    have hseed : isSeed C th y bN e n = false := by
      refine isSeed_false_of C th y bN e n ?_
      intro c hc hv
      interval_cases c
      · simp [hv0] at hv
      · rw [← hf 1]
        cases hb : st.f01 with
        | false => exact absurd ⟨catViol1_y C th y bN e n hv, hb⟩ h11
        | true => exact hb
      · simp [hv2] at hv
      · simp [hv3] at hv
      · rw [← hf 4]
        cases hb : st.f11 with
        | false => exact absurd ⟨catViol4_y C th y bN e n hv, hb⟩ h12
        | true => exact hb
      · simp [hv5] at hv
    refine ⟨sw_update_skip C th y bN e st.SW n hsw hseed,
      flag_update C th y bN e st _ n hf ?_⟩
    intro c hc
    interval_cases c
    · simp only [flagOf]
      simp [hv0]
    · simp only [flagOf]
      cases hx : catViol C th y bN e 1 n with
      | false => simp
      | true =>
          cases hb : st.f01 with
          | false => exact absurd ⟨catViol1_y C th y bN e n hx, hb⟩ h11
          | true => simp
    · simp only [flagOf]
      simp [hv2]
    · simp only [flagOf]
      simp [hv3]
    · simp only [flagOf]
      cases hx : catViol C th y bN e 4 n with
      | false => simp
      | true =>
          cases hb : st.f11 with
          | false => exact absurd ⟨catViol4_y C th y bN e n hx, hb⟩ h12
          | true => simp
    · simp only [flagOf]
      simp [hv5]
  · have hv2 : catViol C th y bN e 2 n = false := by
      simp only [catViol]
      rw [decide_eq_false_iff_not]
      intro hcon
      exact h1 hcon.1
    have hv5 : catViol C th y bN e 5 n = false := by
      simp only [catViol]
      rw [decide_eq_false_iff_not]
      intro hcon
      exact h1 hcon.1
    have hv0 : catViol C th y bN e 0 n = false := by
      simp only [catViol]
      rw [decide_eq_false_iff_not]
      intro hcon
      exact h5 hcon.2.1
    have hv3 : catViol C th y bN e 3 n = false := by
      simp only [catViol]
      rw [decide_eq_false_iff_not]
      intro hcon
      exact h5 hcon.2.1
    have hv1 : catViol C th y bN e 1 n = false := by
      simp only [catViol]
      rw [decide_eq_false_iff_not]
      intro hcon
      exact h10 hcon.2.2.2.2.1
    have hv4 : catViol C th y bN e 4 n = false := by
      simp only [catViol]
      rw [decide_eq_false_iff_not]
      intro hcon
      exact h10 hcon.2.2.2.2.1
    have hseed : isSeed C th y bN e n = false := by
      refine isSeed_false_of C th y bN e n ?_
      intro c hc hv
      interval_cases c <;> simp_all
    refine ⟨sw_update_skip C th y bN e st.SW n hsw hseed,
      flag_update C th y bN e st _ n hf ?_⟩
    intro c hc
    interval_cases c <;> simp only [flagOf] <;> simp [hv0, hv1, hv2, hv3, hv4, hv5]
  · have hv2 : catViol C th y bN e 2 n = false := by
      simp only [catViol]
      rw [decide_eq_false_iff_not]
      intro hcon
      exact h1 hcon.1
    have hv5 : catViol C th y bN e 5 n = false := by
      simp only [catViol]
      rw [decide_eq_false_iff_not]
      intro hcon
      exact h1 hcon.1
    have hv0 : catViol C th y bN e 0 n = false := by
      simp only [catViol]
      rw [decide_eq_false_iff_not]
      intro hcon
      exact h5 hcon.2.1
    have hv3 : catViol C th y bN e 3 n = false := by
      simp only [catViol]
      rw [decide_eq_false_iff_not]
      intro hcon
      exact h5 hcon.2.1
    have hv1 : catViol C th y bN e 1 n = false := by
      simp only [catViol]
      rw [decide_eq_false_iff_not]
      intro hcon
      exact h9 ⟨hcon.2.2.1, hcon.2.2.2.1⟩
    have hv4 : catViol C th y bN e 4 n = false := by
      simp only [catViol]
      rw [decide_eq_false_iff_not]
      intro hcon
      exact h9 ⟨hcon.2.2.1, hcon.2.2.2.1⟩
    have hseed : isSeed C th y bN e n = false := by
      refine isSeed_false_of C th y bN e n ?_
      intro c hc hv
      interval_cases c <;> simp_all
    refine ⟨sw_update_skip C th y bN e st.SW n hsw hseed,
      flag_update C th y bN e st _ n hf ?_⟩
    intro c hc
    interval_cases c <;> simp only [flagOf] <;> simp [hv0, hv1, hv2, hv3, hv4, hv5]

theorem scanClassify_char (C th : ℚ) (y bN e : List ℚ) : ∀ l : Nat,
    (scanClassify C th l y bN e).SW = (List.range l).filter (isSeed C th y bN e) ∧
    ∀ c, flagOf (scanClassify C th l y bN e) c =
      (List.range l).any (fun j => catViol C th y bN e c j) := by
  intro l
  induction l with
  | zero => exact ⟨rfl, fun c => by rcases c with _|_|_|_|_|_|c <;> rfl⟩
  | succ n ih =>
      unfold scanClassify at ih ⊢
      rw [show List.range (n + 1) = List.range n ++ [n] from List.range_succ n,
        List.foldl_append]
      simp only [List.foldl_cons, List.foldl_nil]
      have h := scanStep_char C th y bN e _ n ih.1 ih.2
      rw [show List.range (n + 1) = List.range n ++ [n] from List.range_succ n] at h
      exact h

theorem fill_fold_split (space : Int) (f : Nat → Nat) (sw sin : List Nat) (n : Nat) :
    (List.range n).foldl
      (fun (st : List Nat × List Nat) (i : Nat) =>
        if (i : Int) < space then (st.1 ++ [f i], st.2) else (st.1, st.2 ++ [f i]))
      (sw, sin) =
    (sw ++ ((List.range n).filter (fun (i : Nat) => decide ((i : Int) < space))).map f,
     sin ++ ((List.range n).filter (fun (i : Nat) => !decide ((i : Int) < space))).map f) := by
  induction n with
  | zero => simp
  | succ m ih =>
      rw [show List.range (m + 1) = List.range m ++ [m] from List.range_succ m,
        List.foldl_append, ih]
      simp only [List.foldl_cons, List.foldl_nil, List.filter_append, List.map_append]
      by_cases h : (m : Int) < space
      · simp [h]
      · simp [h]

theorem range_filter_lt (space : Int) : ∀ n : Nat,
    (List.range n).filter (fun (i : Nat) => decide ((i : Int) < space)) =
      List.range (min n space.toNat) := by
  intro n
  induction n with
  | zero => simp
  | succ m ih =>
      rw [show List.range (m + 1) = List.range m ++ [m] from List.range_succ m,
        List.filter_append, ih]
      by_cases h : (m : Int) < space
      · have h1 : min (m + 1) space.toNat = min m space.toNat + 1 := by omega
        have h2 : min m space.toNat = m := by omega
        rw [h1, h2]
        simp [h, List.range_succ, h2]
      · have h1 : min (m + 1) space.toNat = min m space.toNat := by omega
        rw [h1]
        simp [h]

theorem map_getD_range (l : List Nat) :
    (List.range l.length).map (fun i => l.getD i 0) = l := by
  apply List.ext_getElem
  · simp
  · intro i h1 h2
    simp [List.getD_eq_getElem?_getD, List.getElem?_eq_getElem h2]

theorem perm_map_getD (p : List Nat) (n : Nat) (hp : p.Perm (List.range n)) (g : Nat → Nat) :
    (List.range n).map (fun i => g (p.getD i 0)) = p.map g := by
  have hlen : p.length = n := hp.length_eq.trans (List.length_range n)
  apply List.ext_getElem
  · simp [hlen]
  · intro i h1 h2
    have hi : i < p.length := by simp at h1; omega
    simp [List.getD_eq_getElem?_getD, List.getElem?_eq_getElem hi]

theorem boolNat_le_one (b : Bool) : boolNat b ≤ 1 := by cases b <;> simp [boolNat]

theorem scanStep_count (C th : ℚ) (y bN e : List ℚ) (st : ScanOut) (i : Nat)
    (h : st.SW.length ≤ boolNat st.f00 + boolNat st.f01 + boolNat st.f02 +
      boolNat st.f10 + boolNat st.f11 + boolNat st.f12) :
    (scanStep C th y bN e st i).SW.length ≤
      boolNat (scanStep C th y bN e st i).f00 + boolNat (scanStep C th y bN e st i).f01 +
      boolNat (scanStep C th y bN e st i).f02 + boolNat (scanStep C th y bN e st i).f10 +
      boolNat (scanStep C th y bN e st i).f11 + boolNat (scanStep C th y bN e st i).f12 := by
  simp only [scanStep]
  split_ifs <;> simp_all [boolNat] <;> omega

theorem scanClassify_SW_le6 (C th : ℚ) (y bN e : List ℚ) (l : Nat) :
    (scanClassify C th l y bN e).SW.length ≤ 6 := by
  suffices h : (scanClassify C th l y bN e).SW.length ≤
      boolNat (scanClassify C th l y bN e).f00 + boolNat (scanClassify C th l y bN e).f01 +
      boolNat (scanClassify C th l y bN e).f02 + boolNat (scanClassify C th l y bN e).f10 +
      boolNat (scanClassify C th l y bN e).f11 + boolNat (scanClassify C th l y bN e).f12 by
    have b0 := boolNat_le_one (scanClassify C th l y bN e).f00
    have b1 := boolNat_le_one (scanClassify C th l y bN e).f01
    have b2 := boolNat_le_one (scanClassify C th l y bN e).f02
    have b3 := boolNat_le_one (scanClassify C th l y bN e).f10
    have b4 := boolNat_le_one (scanClassify C th l y bN e).f11
    have b5 := boolNat_le_one (scanClassify C th l y bN e).f12
    omega
  unfold scanClassify
  induction l with
  | zero => simp [boolNat]
  | succ n ih =>
      rw [show List.range (n + 1) = List.range n ++ [n] from List.range_succ n,
        List.foldl_append]
      simp only [List.foldl_cons, List.foldl_nil]
      exact scanStep_count C th y bN e _ n ih

theorem fillWS_len_le (MaxWS : Nat) (rp : Nat → List Nat) (sw sin sc : List Nat) :
    (fillWS MaxWS rp sw sin sc).1.length ≤ max MaxWS sw.length := by
  unfold fillWS
  split
  · rename_i h
    simp only [List.length_append]
    omega
  · rename_i h
    rw [fill_fold_split ((MaxWS : Int) - (sw.length : Int))
      (fun i => sc.getD ((rp sc.length).getD i 0) 0) sw sin sc.length]
    simp only [List.length_append, List.length_map,
      range_filter_lt ((MaxWS : Int) - (sw.length : Int)) sc.length, List.length_range]
    omega

theorem getD_set_ne (l : List ℚ) (p q : Nat) (v : ℚ) (h : p ≠ q) :
    (l.set p v).getD q 0 = l.getD q 0 := by
  simp [List.getD_eq_getElem?_getD, List.getElem?_set_ne h]

theorem getD_set_lt (l : List ℚ) (p : Nat) (v : ℚ) (h : p < l.length) :
    (l.set p v).getD p 0 = v := by
  simp [List.getD_eq_getElem?_getD, List.getElem?_set_self h]

theorem getD_set_ge (l : List ℚ) (p : Nat) (v : ℚ) (h : l.length ≤ p) :
    l.set p v = l := List.set_eq_of_length_le h

theorem foldl_set_inv (Q : Nat → ℚ → Prop) (g : Nat → Nat) (fv : Nat → ℚ) :
    ∀ (idxs : List Nat) (b : List ℚ),
      (∀ p, Q p (idx b p)) → (∀ i ∈ idxs, Q (g i) (fv i)) →
      ∀ p, Q p (idx ((idxs.foldl (fun bb i => bb.set (g i) (fv i)) b)) p) := by
  intro idxs
  induction idxs with
  | nil => intro b hb _ p; exact hb p
  | cons i is ih =>
      intro b hb hf p
      simp only [List.foldl_cons]
      refine ih (b.set (g i) (fv i)) ?_ (fun j hj => hf j (by simp [hj])) p
      intro q
      by_cases hq : g i = q
      · subst hq
        by_cases hlen : g i < b.length
        · rw [show idx (b.set (g i) (fv i)) (g i) = fv i from getD_set_lt b (g i) (fv i) hlen]
          exact hf i (by simp)
        · rw [show b.set (g i) (fv i) = b from getD_set_ge b (g i) (fv i) (by omega)]
          exact hb (g i)
      · rw [show idx (b.set (g i) (fv i)) q = idx b q from getD_set_ne b (g i) q (fv i) hq]
        exact hb q

/-- C3 (amended): the box constraint `0 ≤ β_i·y_i ≤ C` holds for every
sample after the merge of an outer iteration PROVIDED the candidate
weights returned by `subIRWLS` satisfy it on the working-set slots and the
previous global weights satisfied it; the code itself never enforces the
premise (see the counterexample run), so the unconditional claim fails. -/
theorem merge_preserves_box (ctx : OuterCtx) (s : OuterState) (betaTmp : List ℚ)
    (hold : ∀ p, p < ctx.l → 0 ≤ idx s.beta p * idx ctx.y p ∧
      idx s.beta p * idx ctx.y p ≤ ctx.props.C)
    (htmp : ∀ i, i < s.SW.length → 0 ≤ idx betaTmp i * idx ctx.y (s.SW.getD i 0) ∧
      idx betaTmp i * idx ctx.y (s.SW.getD i 0) ≤ ctx.props.C) :
    ∀ p, p < ctx.l →
      0 ≤ idx (outerMergeScan ctx s betaTmp).betaNew p * idx ctx.y p ∧
      idx (outerMergeScan ctx s betaTmp).betaNew p * idx ctx.y p ≤ ctx.props.C := by
  intro p hp
  have hQ := foldl_set_inv
    (fun q v => q < ctx.l → 0 ≤ v * idx ctx.y q ∧ v * idx ctx.y q ≤ ctx.props.C)
    (fun i => s.SW.getD i 0) (fun i => idx betaTmp i)
    (List.range s.SW.length) s.beta
    (fun q hq => hold q hq)
    (fun i hi => fun _ => htmp i (by simpa using hi))
  have hne : ctx.l ≠ p := by omega
  simp only [outerMergeScan]
  rw [show idx ((((List.range s.SW.length).foldl
        (fun b i => b.set (s.SW.getD i 0) (idx betaTmp i)) s.beta)).set ctx.l
        (idx betaTmp s.SW.length)) p =
      idx ((List.range s.SW.length).foldl
        (fun b i => b.set (s.SW.getD i 0) (idx betaTmp i)) s.beta) p from
    getD_set_ne _ ctx.l p _ hne]
  exact hQ p hp

theorem pow2_le_log2 (a b : Nat) (h : 2 ^ a ≤ b) : 2 ^ a ≤ 2 ^ Nat.log2 b := by
  have hlt : b < 2 ^ (Nat.log2 b + 1) := Nat.lt_log2_self
  have hab : a ≤ Nat.log2 b := by
    by_contra hc
    push_neg at hc
    have : 2 ^ (Nat.log2 b + 1) ≤ 2 ^ a := Nat.pow_le_pow_right (by norm_num) (by omega)
    omega
  exact Nat.pow_le_pow_right (by norm_num) hab

theorem thLSof_spec (threads nS1 : Nat) (h1 : 1 ≤ threads) (h2 : 1 ≤ nS1) :
    (∃ k, thLSof threads nS1 = 2 ^ k) ∧
    thLSof threads nS1 ≤ threads ∧ thLSof threads nS1 ≤ nS1 ∧
    (∀ k, 2 ^ k ≤ threads → 2 ^ k ≤ nS1 → 2 ^ k ≤ thLSof threads nS1) := by
  have hth : threads ≠ 0 := by omega
  have hns : nS1 ≠ 0 := by omega
  have hle1 : 2 ^ Nat.log2 threads ≤ threads := Nat.log2_self_le hth
  have hle2 : 2 ^ Nat.log2 nS1 ≤ nS1 := Nat.log2_self_le hns
  have hp1 : 1 ≤ 2 ^ Nat.log2 threads := Nat.one_le_two_pow
  have hp2 : 1 ≤ 2 ^ Nat.log2 nS1 := Nat.one_le_two_pow
  simp only [thLSof, pow2floorlog]
  rw [if_neg hth]
  by_cases hc : nS1 < 2 ^ Nat.log2 threads
  · rw [if_pos hc, if_neg hns, if_neg (by omega)]
    refine ⟨⟨Nat.log2 nS1, rfl⟩, by omega, hle2, ?_⟩
    intro k _ hk2
    exact pow2_le_log2 k nS1 hk2
  · rw [if_neg hc, if_neg (by omega)]
    refine ⟨⟨Nat.log2 threads, rfl⟩, hle1, by omega, ?_⟩
    intro k hk1 _
    exact pow2_le_log2 k threads hk1

theorem initPartition_spec (MaxWS : Nat) : ∀ l : Nat,
    (initPartition l MaxWS).1 =
      ((List.range l).filter (fun i => decide (i % 10 = 0))).take MaxWS ∧
    (initPartition l MaxWS).2 =
      (List.range l).filter (fun i =>
        !(decide (i % 10 = 0) &&
          decide (((List.range i).filter (fun j => decide (j % 10 = 0))).length < MaxWS))) := by
  intro l
  induction l with
  | zero => exact ⟨by simp [initPartition], by simp [initPartition]⟩
  | succ n ih =>
      unfold initPartition at ih ⊢
      rw [show List.range (n + 1) = List.range n ++ [n] from List.range_succ n,
        List.foldl_append]
      simp only [List.foldl_cons, List.foldl_nil]
      rw [ih.1, ih.2, List.filter_append, List.filter_append]
      have hlen : (((List.range n).filter (fun i => decide (i % 10 = 0))).take MaxWS).length =
          min MaxWS ((List.range n).filter (fun i => decide (i % 10 = 0))).length := by
        rw [List.length_take]
      by_cases hm : n % 10 = 0
      · have hf1 : [n].filter (fun i => decide (i % 10 = 0)) = [n] := by simp [hm]
        by_cases hcap : ((List.range n).filter (fun i => decide (i % 10 = 0))).length < MaxWS
        · have hf2 : [n].filter (fun i =>
              !(decide (i % 10 = 0) &&
                decide (((List.range i).filter
                  (fun j => decide (j % 10 = 0))).length < MaxWS))) = [] := by
            simp [hm, hcap]
          rw [if_pos ⟨by omega, by rw [hlen]; omega⟩, hf1, hf2, List.append_nil]
          refine ⟨?_, rfl⟩
          rw [List.take_append_eq_append_take,
            List.take_of_length_le (l := [n]) (by rw [List.length_singleton]; omega)]
        · have hf2 : [n].filter (fun i =>
              !(decide (i % 10 = 0) &&
                decide (((List.range i).filter
                  (fun j => decide (j % 10 = 0))).length < MaxWS))) = [n] := by
            simp [hm, hcap]
          rw [if_neg (by rw [hlen]; omega), hf1, hf2]
          refine ⟨?_, rfl⟩
          rw [List.take_append_eq_append_take,
            show MaxWS -
              ((List.range n).filter (fun i => decide (i % 10 = 0))).length = 0 by omega]
          simp
      · have hf1 : [n].filter (fun i => decide (i % 10 = 0)) = [] := by simp [hm]
        have hf2 : [n].filter (fun i =>
            !(decide (i % 10 = 0) &&
              decide (((List.range i).filter
                (fun j => decide (j % 10 = 0))).length < MaxWS))) = [n] := by
          simp [hm]
        rw [if_neg (by omega), hf1, hf2, List.append_nil]
        exact ⟨rfl, rfl⟩

/-- C7: the next working set of an outer iteration seeds, per violation
category, the first violating sample in scan order (`SW` is exactly the
scan-order filter of first-of-category violators); then if the candidate
pool fits in the remaining capacity (as the C code's signed comparison),
the whole pool is appended and the inactive set is untouched; otherwise
exactly `min |SC| (MaxWS - |SW|)⁺` candidates, chosen by walking the
random permutation, are appended and the remaining candidates are
deferred to the inactive set, with the appended and deferred samples
together a permutation of the pool (no replacement), provided the
permutation oracle returns a permutation of `0..|SC|-1`. -/
theorem nextWorkingSet_spec (C th : ℚ) (y bN e : List ℚ) (l MaxWS : Nat) (rp : Nat → List Nat)
    (hperm : (rp (scanClassify C th l y bN e).SC.length).Perm
      (List.range (scanClassify C th l y bN e).SC.length)) :
    (scanClassify C th l y bN e).SW = (List.range l).filter (isSeed C th y bN e) ∧
    ((((scanClassify C th l y bN e).SC.length : Int) <
        (MaxWS : Int) - ((scanClassify C th l y bN e).SW.length : Int)) →
      fillWS MaxWS rp (scanClassify C th l y bN e).SW (scanClassify C th l y bN e).SIN
        (scanClassify C th l y bN e).SC =
      ((scanClassify C th l y bN e).SW ++ (scanClassify C th l y bN e).SC,
        (scanClassify C th l y bN e).SIN)) ∧
    (¬(((scanClassify C th l y bN e).SC.length : Int) <
        (MaxWS : Int) - ((scanClassify C th l y bN e).SW.length : Int)) →
      ∃ picked deferred : List Nat,
        fillWS MaxWS rp (scanClassify C th l y bN e).SW (scanClassify C th l y bN e).SIN
          (scanClassify C th l y bN e).SC =
          ((scanClassify C th l y bN e).SW ++ picked,
            (scanClassify C th l y bN e).SIN ++ deferred) ∧
        picked.length = min (scanClassify C th l y bN e).SC.length
          ((MaxWS : Int) - ((scanClassify C th l y bN e).SW.length : Int)).toNat ∧
        (picked ++ deferred).Perm (scanClassify C th l y bN e).SC) := by
  refine ⟨(scanClassify_char C th y bN e l).1, ?_, ?_⟩
  · intro h
    unfold fillWS
    rw [if_pos h]
  · intro h
    simp only [fillWS]
    rw [if_neg h]
    rw [fill_fold_split ((MaxWS : Int) - ((scanClassify C th l y bN e).SW.length : Int))
      (fun i => (scanClassify C th l y bN e).SC.getD
        ((rp (scanClassify C th l y bN e).SC.length).getD i 0) 0)
      (scanClassify C th l y bN e).SW (scanClassify C th l y bN e).SIN
      (scanClassify C th l y bN e).SC.length]
    refine ⟨_, _, rfl, ?_, ?_⟩
    · rw [List.length_map,
        range_filter_lt ((MaxWS : Int) - ((scanClassify C th l y bN e).SW.length : Int))
          (scanClassify C th l y bN e).SC.length,
        List.length_range]
    · have e1 : (List.range (scanClassify C th l y bN e).SC.length).map
          (fun i => (scanClassify C th l y bN e).SC.getD
            ((rp (scanClassify C th l y bN e).SC.length).getD i 0) 0) =
          (rp (scanClassify C th l y bN e).SC.length).map
            (fun j => (scanClassify C th l y bN e).SC.getD j 0) :=
        perm_map_getD (rp (scanClassify C th l y bN e).SC.length)
          (scanClassify C th l y bN e).SC.length hperm
          (fun j => (scanClassify C th l y bN e).SC.getD j 0)
      rw [← List.map_append]
      refine ((List.filter_append_perm _ _).map _).trans ?_
      rw [e1]
      refine (hperm.map _).trans ?_
      rw [map_getD_range]

/-- C5 (amended): the size of the working set built by the six-category
selection plus overflow fill is bounded by `max MaxWorkingSize 6`, not by
`MaxWorkingSize`: the per-category seeds are appended before the capacity
check, so up to 6 seeds survive even when `MaxWorkingSize` is smaller
(see the counterexample run); when `MaxWorkingSize ≥ 6` the claimed bound
holds. -/
theorem workingSet_bounded (C th : ℚ) (y bN e : List ℚ) (l MaxWS : Nat) (rp : Nat → List Nat) :
    (fillWS MaxWS rp (scanClassify C th l y bN e).SW (scanClassify C th l y bN e).SIN
      (scanClassify C th l y bN e).SC).1.length ≤ max MaxWS 6 := by
  refine (fillWS_len_le MaxWS rp _ _ _).trans ?_
  have h := scanClassify_SW_le6 C th y bN e l
  omega

/-- C6 (amended): the per-iteration re-partitioning weight `aStep` follows
the capped specification formula exactly, and the initial weighting
`aInit` follows the UNCAPPED formula `y·C/e` for `e·y ≥ 0`: the near-zero
cap applies only at the re-partitioning site (`full-train.c:272-278`),
not at the initial weighting (`full-train.c:133-139`), contrary to the
claim's "both sites" (see the counterexample). -/
theorem aStep_capped_aInit_uncapped (e y C : ℚ) :
    aStep e y C = aSpecCapped e y C ∧ aInit e y C = aSpecUncapped e y C := by
  unfold aStep aSpecCapped aInit aSpecUncapped
  constructor <;> split_ifs <;> ring

/-- C8: in every inner iteration the linear system is solved with a thread
count that is a power of two, no larger than the configured thread budget
or the free-set size, and the largest such power of two (minimum 1 holds
since `2^0 ≤ thLS`), and the configured budget is restored in the
`ompThreads` field immediately after the solve
(`omp_set_num_threads(props.Threads)`, `full-train.c:201`). -/
theorem solver_thread_count_spec (ctx : InnerCtx) (s : InnerState)
    (h1 : 1 ≤ ctx.Threads) (h2 : 1 ≤ s.S1comp.length) :
    (∃ k, (innerStep ctx s).lastSolveThreads = 2 ^ k) ∧
    (innerStep ctx s).lastSolveThreads ≤ ctx.Threads ∧
    (innerStep ctx s).lastSolveThreads ≤ s.S1comp.length ∧
    (∀ k, 2 ^ k ≤ ctx.Threads → 2 ^ k ≤ s.S1comp.length →
      2 ^ k ≤ (innerStep ctx s).lastSolveThreads) ∧
    (innerStep ctx s).ompThreads = ctx.Threads := by
  have h := thLSof_spec ctx.Threads s.S1comp.length h1 h2
  have hsite : (innerStep ctx s).lastSolveThreads = thLSof ctx.Threads s.S1comp.length := rfl
  rw [hsite]
  exact ⟨h.1, h.2.1, h.2.2.1, h.2.2.2, rfl⟩

/-- C9: at session start `trainFULL` deterministically selects, in
increasing index order, the samples whose index is divisible by 10 until
`MaxWorkingSize` are taken (`SW` is the `MaxSize`-prefix of the multiples
of 10 below `l`), places every other sample in the inactive set in scan
order, and initialises every residual to the sample's label. -/
theorem initial_working_set_spec (ctx : OuterCtx) :
    (outerInit ctx).SW =
      ((List.range ctx.l).filter (fun i => decide (i % 10 = 0))).take ctx.props.MaxSize ∧
    (outerInit ctx).SIN = (List.range ctx.l).filter (fun i =>
      !(decide (i % 10 = 0) &&
        decide (((List.range i).filter (fun j => decide (j % 10 = 0))).length <
          ctx.props.MaxSize))) ∧
    (outerInit ctx).e = (List.range ctx.l).map (fun i => idx ctx.y i) :=
  ⟨(initPartition_spec ctx.props.MaxSize ctx.l).1,
    (initPartition_spec ctx.props.MaxSize ctx.l).2, rfl⟩

/-- C10: after the re-classification scan of an outer iteration, the three
sets `SW`, `SIN`, `SC` together contain each sample index exactly once
(their concatenation is a permutation of `0..l-1`), provided every label
is `±1` — the three tested cases are exhaustive and mutually exclusive
then, and each branch appends the sample to exactly one set. -/
theorem scan_partitions_samples (C th : ℚ) (y bN e : List ℚ) (l : Nat)
    (hy : ∀ i, i < l → idx y i = 1 ∨ idx y i = -1) :
    ((scanClassify C th l y bN e).SW ++ (scanClassify C th l y bN e).SIN ++
      (scanClassify C th l y bN e).SC).Perm (List.range l) :=
  scanClassify_partition C th y bN e l hy

/-- Witness for C10 at a concrete two-sample scan. -/
theorem scan_partitions_samples_witness :
    ((scanClassify 1 (1 / 1000) 2 [1, -1] [0, 0, 0] [1, -1]).SW ++
      (scanClassify 1 (1 / 1000) 2 [1, -1] [0, 0, 0] [1, -1]).SIN ++
      (scanClassify 1 (1 / 1000) 2 [1, -1] [0, 0, 0] [1, -1]).SC).Perm (List.range 2) :=
  scan_partitions_samples 1 (1 / 1000) [1, -1] [0, 0, 0] [1, -1] 2
    (by intro i hi
        interval_cases i
        · exact Or.inl rfl
        · exact Or.inr rfl)

/-- Witness for C7 at a concrete two-sample scan with the identity
permutation oracle. -/
theorem nextWorkingSet_spec_witness :
    (scanClassify 1 (1 / 1000) 2 [1, -1] [0, 0, 0] [1, -1]).SW =
      (List.range 2).filter (isSeed 1 (1 / 1000) [1, -1] [0, 0, 0] [1, -1]) ∧
    ((((scanClassify 1 (1 / 1000) 2 [1, -1] [0, 0, 0] [1, -1]).SC.length : Int) <
        ((10 : Nat) : Int) -
          ((scanClassify 1 (1 / 1000) 2 [1, -1] [0, 0, 0] [1, -1]).SW.length : Int)) →
      fillWS 10 (fun n => List.range n)
        (scanClassify 1 (1 / 1000) 2 [1, -1] [0, 0, 0] [1, -1]).SW
        (scanClassify 1 (1 / 1000) 2 [1, -1] [0, 0, 0] [1, -1]).SIN
        (scanClassify 1 (1 / 1000) 2 [1, -1] [0, 0, 0] [1, -1]).SC =
      ((scanClassify 1 (1 / 1000) 2 [1, -1] [0, 0, 0] [1, -1]).SW ++
          (scanClassify 1 (1 / 1000) 2 [1, -1] [0, 0, 0] [1, -1]).SC,
        (scanClassify 1 (1 / 1000) 2 [1, -1] [0, 0, 0] [1, -1]).SIN)) ∧
    (¬(((scanClassify 1 (1 / 1000) 2 [1, -1] [0, 0, 0] [1, -1]).SC.length : Int) <
        ((10 : Nat) : Int) -
          ((scanClassify 1 (1 / 1000) 2 [1, -1] [0, 0, 0] [1, -1]).SW.length : Int)) →
      ∃ picked deferred : List Nat,
        fillWS 10 (fun n => List.range n)
          (scanClassify 1 (1 / 1000) 2 [1, -1] [0, 0, 0] [1, -1]).SW
          (scanClassify 1 (1 / 1000) 2 [1, -1] [0, 0, 0] [1, -1]).SIN
          (scanClassify 1 (1 / 1000) 2 [1, -1] [0, 0, 0] [1, -1]).SC =
          ((scanClassify 1 (1 / 1000) 2 [1, -1] [0, 0, 0] [1, -1]).SW ++ picked,
            (scanClassify 1 (1 / 1000) 2 [1, -1] [0, 0, 0] [1, -1]).SIN ++ deferred) ∧
        picked.length = min (scanClassify 1 (1 / 1000) 2 [1, -1] [0, 0, 0] [1, -1]).SC.length
          (((10 : Nat) : Int) -
            ((scanClassify 1 (1 / 1000) 2 [1, -1] [0, 0, 0] [1, -1]).SW.length : Int)).toNat ∧
        (picked ++ deferred).Perm (scanClassify 1 (1 / 1000) 2 [1, -1] [0, 0, 0] [1, -1]).SC) :=
  nextWorkingSet_spec 1 (1 / 1000) [1, -1] [0, 0, 0] [1, -1] 2 10 (fun n => List.range n)
    (List.Perm.refl _)

/-- Witness for C8 at a concrete one-sample inner context. -/
theorem solver_thread_count_spec_witness :
    (1 ≤ subCtxOsc.Threads ∧ 1 ≤ (innOsc 1 0).S1comp.length) ∧
    ((∃ k, (innerStep subCtxOsc (innOsc 1 0)).lastSolveThreads = 2 ^ k) ∧
      (innerStep subCtxOsc (innOsc 1 0)).lastSolveThreads ≤ subCtxOsc.Threads ∧
      (innerStep subCtxOsc (innOsc 1 0)).lastSolveThreads ≤ (innOsc 1 0).S1comp.length ∧
      (∀ k, 2 ^ k ≤ subCtxOsc.Threads → 2 ^ k ≤ (innOsc 1 0).S1comp.length →
        2 ^ k ≤ (innerStep subCtxOsc (innOsc 1 0)).lastSolveThreads) ∧
      (innerStep subCtxOsc (innOsc 1 0)).ompThreads = subCtxOsc.Threads) :=
  ⟨⟨le_refl 1, le_refl 1⟩,
    solver_thread_count_spec subCtxOsc (innOsc 1 0) (le_refl 1) (le_refl 1)⟩

/-- Witness for C3 at the `ctxTiny` first outer iteration with the zero
candidate weights. -/
theorem merge_preserves_box_witness :
    0 ≤ idx (outerMergeScan ctxTiny (outerInit ctxTiny) [0, 0]).betaNew 0 *
        idx ctxTiny.y 0 ∧
    idx (outerMergeScan ctxTiny (outerInit ctxTiny) [0, 0]).betaNew 0 * idx ctxTiny.y 0 ≤
      ctxTiny.props.C :=
  merge_preserves_box ctxTiny (outerInit ctxTiny) [0, 0]
    (by intro p hp
        simp only [ctxTiny] at hp
        interval_cases p <;>
          norm_num [outerInit, ctxTiny, idx, List.replicate])
    (by intro i hi
        rw [show (outerInit ctxTiny).SW.length = 1 from rfl] at hi
        interval_cases i
        norm_num [outerInit, ctxTiny, idx, initPartition, List.range_succ])
    0 (by norm_num [ctxTiny])

end LIBIRWLS
